import Mathlib

/-!
# Ecobici CDMX DuckDB extension: feed fetcher, range walker, batch cursor

A shallow embedding of `src/ecobici_api_client.cpp` and `src/ecobici_extension.cpp`.

* C++ `int` is a 32-bit two's-complement integer: values are `Int`, arithmetic that can leave
  the range goes through `wrapInt32`.
* An `httplib::Client` talks to a remote side the program does not control. It is a `Server`:
  a function from the requests made so far and the current request to the outcome of
  `cli.Get`, where `none` is httplib's empty `Result` (a transport-level failure). Every
  fetch function threads the log of `cli.Get` calls, so "how many requests, to which paths"
  is part of its value. Timeouts and redirect following live inside `cli.Get`. A path
  reaches `cli.Get` as `path.c_str()`, so the path requested is `c_str path`: the text up to
  the first NUL character.
* C++ exceptions are the error side of `Except Exception`.
* The JSON library is modelled on parsed values (`Json`): `contains`, `operator[]`,
  `value(key, default)`, the conversions `get<T>` and iteration. `json::parse` itself is a
  parameter `parse` of the bind functions.
* A `DataChunk` is its column count, its cells and its cardinality; the host's constant
  `STANDARD_VECTOR_SIZE` is the parameter `vector_size` of the pull functions.
-/

set_option autoImplicit false

namespace Ecobici

/-! ## Machine integers and stream formatting -/

/-- Two's-complement wrap of an integer into the range of a C++ `int`. -/
def wrapInt32 (i : Int) : Int := (i + 2147483648) % 4294967296 - 2147483648

/-- Range of a C++ `int`. -/
def isInt32 (i : Int) : Prop := -2147483648 ≤ i ∧ i ≤ 2147483647

instance (i : Int) : Decidable (isInt32 i) := by unfold isInt32; infer_instance

/-- Text written by `os << std::setfill('0') << std::setw(2) << n` for an `int n`:
the decimal text of `n`, padded on the left with the fill character up to width 2
(adjustment to the right is the stream's default; a text of two or more characters is
written as it is). -/
def setw2 (n : Int) : String :=
  let s := toString n
  String.mk (List.replicate (2 - s.length) '0') ++ s

/-- Text that the `const char*` returned by `s.c_str()` denotes: the characters of `s`
before its first NUL character. -/
def c_str (s : String) : String :=
  String.mk (s.data.takeWhile (fun c => c != Char.ofNat 0))

/-- Spec: the string holds no NUL character. -/
def noNul (s : String) : Prop := ∀ c ∈ s.data, c ≠ Char.ofNat 0

instance (s : String) : Decidable (noNul s) := by unfold noNul; infer_instance

/-! ## HTTP -/

/-- One `cli.Get` call: the host the client was built for and the path asked. -/
structure Request where
  host : String
  path : String
deriving DecidableEq, Repr

/-- Fields of `httplib::Response` the program reads. -/
structure Response where
  status : Int
  body : String
deriving DecidableEq, Repr

/-- Remote side: requests made so far, current request, outcome (`none`: empty `Result`). -/
abbrev Server := List Request → Request → Option Response

/-- Exceptions that can leave the program's functions: DuckDB's `IOException`, thrown by
the fetch functions, and the JSON library's exceptions (with their numeric id): `type_error`
from the accessors, `parse_error` and `out_of_range` from `json::parse`. -/
inductive Exception where
  | IOException (msg : String)
  | type_error (id : Nat)
  | parse_error (id : Nat)
  | out_of_range (id : Nat)
deriving DecidableEq, Repr

instance instDecidableEqExcept {ε α : Type} [DecidableEq ε] [DecidableEq α] :
    DecidableEq (Except ε α)
  | .ok a, .ok b =>
    if h : a = b then isTrue (by rw [h]) else isFalse (fun h1 => h (by cases h1; rfl))
  | .error a, .error b =>
    if h : a = b then isTrue (by rw [h]) else isFalse (fun h1 => h (by cases h1; rfl))
  | .ok _, .error _ => isFalse (fun h1 => by cases h1)
  | .error _, .ok _ => isFalse (fun h1 => by cases h1)

/-- Call of `cli.Get(path)` on a client built for `host`, `path` being the text of the
`const char*` passed: the outcome and the extended log. -/
def clientGet (srv : Server) (host : String) (log : List Request) (path : String) :
    Option Response × List Request :=
  (srv log ⟨host, path⟩, log ++ [⟨host, path⟩])

def gbfsHost : String := "https://gbfs.mex.lyftbikes.com"

def historicalHost : String := "https://ecobici.cdmx.gob.mx"

/-- Method `EcobiciAPIClient::FetchGBFSFeed`: the result or the exception, and the log. -/
def FetchGBFSFeed (srv : Server) (log : List Request) (feed_name : String) :
    Except Exception String × List Request :=
  let path := "/gbfs/en/" ++ feed_name ++ ".json"
  match clientGet srv gbfsHost log (c_str path) with
  | (none, log1) =>
    (.error (.IOException ("Failed to fetch GBFS feed: " ++ feed_name ++ " - Connection error")),
      log1)
  | (some res, log1) =>
    if res.status ≠ 200 then
      (.error (.IOException
        ("Failed to fetch GBFS feed: " ++ feed_name ++ " - HTTP " ++ toString res.status)), log1)
    else
      (.ok res.body, log1)

/-- Path written to `path_stream` in `FetchHistoricalCSV`. -/
def primaryPath (year month : Int) : String :=
  "/wp-content/uploads/" ++ toString year ++ "/" ++ setw2 month ++ "/" ++ toString year
    ++ "-" ++ setw2 (wrapInt32 (month - 1)) ++ ".csv"

/-- Path written to `alt_path_stream` in `FetchHistoricalCSV`. -/
def altPath (year month : Int) : String :=
  "/wp-content/uploads/" ++ toString year ++ "/" ++ setw2 month ++ "/" ++ toString year
    ++ "-" ++ setw2 month ++ ".csv"

/-- Method `EcobiciAPIClient::FetchHistoricalCSV`: the result or the exception, and the log. -/
def FetchHistoricalCSV (srv : Server) (log : List Request) (year month : Int) :
    Except Exception String × List Request :=
  match clientGet srv historicalHost log (c_str (primaryPath year month)) with
  | (none, log1) =>
    (.error (.IOException ("Failed to fetch historical CSV for " ++ toString year ++ "-"
      ++ toString month ++ " - Connection error")), log1)
  | (some res, log1) =>
    if res.status = 404 then
      match clientGet srv historicalHost log1 (c_str (altPath year month)) with
      | (none, log2) =>
        (.error (.IOException ("Failed to fetch historical CSV for " ++ toString year ++ "-"
          ++ toString month ++ " - File not found (tried multiple URL patterns)")), log2)
      | (some res2, log2) =>
        if res2.status ≠ 200 then
          (.error (.IOException ("Failed to fetch historical CSV for " ++ toString year ++ "-"
            ++ toString month ++ " - File not found (tried multiple URL patterns)")), log2)
        else
          (.ok res2.body, log2)
    else if res.status ≠ 200 then
      (.error (.IOException ("Failed to fetch historical CSV for " ++ toString year ++ "-"
        ++ toString month ++ " - HTTP " ++ toString res.status)), log1)
    else
      (.ok res.body, log1)

/-- Loop state of `FetchHistoricalCSVRange`. The field `calls` is a ghost: the arguments of
the `FetchHistoricalCSV` calls made so far, in call order. -/
structure RangeState where
  log : List Request
  calls : List (Int × Int)
  results : List String
  current_year : Int
  current_month : Int
deriving DecidableEq, Repr

/-- Outcome of `FetchHistoricalCSVRange`: the returned vector or the exception that left the
function, the request log, and the ghost list of `FetchHistoricalCSV` calls. -/
structure RangeOutcome where
  result : Except Exception (List String)
  log : List Request
  calls : List (Int × Int)
deriving DecidableEq, Repr

/-- Condition of the `while` loop of `FetchHistoricalCSVRange`. -/
def rangeCond (end_year end_month : Int) (st : RangeState) : Prop :=
  st.current_year < end_year ∨ (st.current_year = end_year ∧ st.current_month ≤ end_month)

instance (end_year end_month : Int) (st : RangeState) :
    Decidable (rangeCond end_year end_month st) := by
  unfold rangeCond; infer_instance

/-- Tail of one loop iteration: `current_month++` and the wrap to the next year. -/
def advanceMonth (st : RangeState) : RangeState :=
  let current_month := wrapInt32 (st.current_month + 1)
  if current_month > 12 then
    { st with current_month := 1, current_year := wrapInt32 (st.current_year + 1) }
  else
    { st with current_month := current_month }

/-- The `while` loop of `FetchHistoricalCSVRange`. `fuel` bounds the number of iterations:
`none` means the loop has not ended within `fuel` iterations. Only `IOException` is caught
by the `catch` clause; any other exception leaves the function. -/
def rangeLoop (srv : Server) (end_year end_month : Int) :
    Nat → RangeState → Option RangeOutcome
  | 0, st =>
    if rangeCond end_year end_month st then none
    else some ⟨.ok st.results, st.log, st.calls⟩
  | fuel + 1, st =>
    if rangeCond end_year end_month st then
      let calls := st.calls ++ [(st.current_year, st.current_month)]
      match FetchHistoricalCSV srv st.log st.current_year st.current_month with
      | (.ok body, log1) =>
        rangeLoop srv end_year end_month fuel
          (advanceMonth { st with log := log1, calls := calls, results := st.results ++ [body] })
      | (.error (.IOException _), log1) =>
        rangeLoop srv end_year end_month fuel
          (advanceMonth { st with log := log1, calls := calls })
      | (.error e, log1) => some ⟨.error e, log1, calls⟩
    else some ⟨.ok st.results, st.log, st.calls⟩

/-- Method `EcobiciAPIClient::FetchHistoricalCSVRange`, run for at most `fuel` loop
iterations. -/
def FetchHistoricalCSVRange (srv : Server) (fuel : Nat) (log : List Request)
    (start_year start_month end_year end_month : Int) : Option RangeOutcome :=
  rangeLoop srv end_year end_month fuel ⟨log, [], [], start_year, start_month⟩

/-! ## Specification-side notions for the range walker -/

/-- Spec: the month after `(y, m)`, "wrapping 12 to 1 with a year increment". -/
def nextMonth (ym : Int × Int) : Int × Int :=
  if ym.2 = 12 then (ym.1 + 1, 1) else (ym.1, ym.2 + 1)

/-- Spec: `n` consecutive months starting at `ym`, in chronological order. -/
def monthSeq : Nat → Int × Int → List (Int × Int)
  | 0, _ => []
  | n + 1, ym => ym :: monthSeq n (nextMonth ym)

/-- Spec: number of months from the start month to the end month inclusive,
`max(0, 12*(end_year - start_year) + (end_month - start_month) + 1)`. -/
def monthCount (start_year start_month end_year end_month : Int) : Nat :=
  (12 * (end_year - start_year) + (end_month - start_month) + 1).toNat

/-- Spec: `(y1, m1)` is chronologically no later than `(y2, m2)`. -/
def monthLe (a b : Int × Int) : Prop := a.1 < b.1 ∨ (a.1 = b.1 ∧ a.2 ≤ b.2)

/-- Spec: `(y1, m1)` is chronologically before `(y2, m2)`. -/
def monthLt (a b : Int × Int) : Prop := a.1 < b.1 ∨ (a.1 = b.1 ∧ a.2 < b.2)

/-- Spec: one `FetchHistoricalCSV` call per listed month, in list order, each seeing the
requests of the earlier ones; the outcomes in order and the final request log. -/
def fetchEach (srv : Server) : List Request → List (Int × Int) →
    List (Except Exception String) × List Request
  | log, [] => ([], log)
  | log, ym :: rest =>
    let r := FetchHistoricalCSV srv log ym.1 ym.2
    let rs := fetchEach srv r.2 rest
    (r.1 :: rs.1, rs.2)

/-- Spec: the bodies of the successful outcomes, in order; failed ones are absent. -/
def okBodies : List (Except Exception String) → List String
  | [] => []
  | .ok body :: rest => body :: okBodies rest
  | .error _ :: rest => okBodies rest

/-- A server of the archive host on which exactly the files named in `present` exist
(status 200, the path as body); every other path is a 404. -/
def archiveServer (present : List String) : Server :=
  fun _ req => if req.path ∈ present then some ⟨200, req.path⟩ else some ⟨404, ""⟩

/-! ## JSON values (the part of `nlohmann::json` the bind functions use)

The type of floating-point numbers is a parameter `F`, and the two conversions the library
performs on them are the fields of `DoubleOps`: nothing below depends on what they compute. -/

/-- Conversions between `double` and the integer types. -/
structure DoubleOps (F : Type) where
  /-- Cast `static_cast<int>(double)`. -/
  toInt : F → Int
  /-- Cast `static_cast<double>` of a 64-bit integer. -/
  ofInt : Int → F
  /-- Literal `0.0`. -/
  zero : F

/-- A parsed JSON value. An object is its members in the order of the underlying `std::map`. -/
inductive Json (F : Type) where
  | null
  | boolean (b : Bool)
  | number_integer (i : Int)
  | number_unsigned (n : Nat)
  | number_float (x : F)
  | string (s : String)
  | array (elems : List (Json F))
  | object (members : List (String × Json F))

/-- Method `contains(key)`: true on an object that has the key, false on everything else. -/
def Json.contains {F : Type} (j : Json F) (key : String) : Bool :=
  match j with
  | .object members => (members.lookup key).isSome
  | _ => false

/-- Access `operator[](key)`: the member on an object (null when absent), null on null,
`type_error` 305 on every other value. -/
def Json.index {F : Type} (j : Json F) (key : String) : Except Exception (Json F) :=
  match j with
  | .object members => .ok ((members.lookup key).getD .null)
  | .null => .ok .null
  | _ => .error (.type_error 305)

/-- Values visited by a range-`for` over a JSON value: the elements of an array, the member
values of an object, nothing for null, and the value itself for any other primitive. -/
def Json.elements {F : Type} (j : Json F) : List (Json F) :=
  match j with
  | .array elems => elems
  | .object members => members.map Prod.snd
  | .null => []
  | other => [other]

/-- Conversion `get<std::string>()`: only a string converts. -/
def Json.get_string {F : Type} (j : Json F) : Except Exception String :=
  match j with
  | .string s => .ok s
  | _ => .error (.type_error 302)

/-- Conversion `get<int>()`: numbers and booleans convert, with the casts of C++. -/
def Json.get_int {F : Type} (ops : DoubleOps F) (j : Json F) : Except Exception Int :=
  match j with
  | .number_unsigned n => .ok (wrapInt32 n)
  | .number_integer i => .ok (wrapInt32 i)
  | .number_float x => .ok (ops.toInt x)
  | .boolean b => .ok (if b then 1 else 0)
  | _ => .error (.type_error 302)

/-- Conversion `get<double>()`: numbers convert, everything else (booleans too) is a `type_error`. -/
def Json.get_double {F : Type} (ops : DoubleOps F) (j : Json F) : Except Exception F :=
  match j with
  | .number_unsigned n => .ok (ops.ofInt n)
  | .number_integer i => .ok (ops.ofInt i)
  | .number_float x => .ok x
  | _ => .error (.type_error 302)

/-- Method `value(key, default)` with a `const char*` default: `type_error` 306 off an object,
the default when the key is absent, else the member converted to a string. -/
def Json.value_string {F : Type} (j : Json F) (key : String) (default_value : String) :
    Except Exception String :=
  match j with
  | .object members =>
    match members.lookup key with
    | some v => v.get_string
    | none => .ok default_value
  | _ => .error (.type_error 306)

/-- Method `value(key, default)` with an `int` default. -/
def Json.value_int {F : Type} (ops : DoubleOps F) (j : Json F) (key : String)
    (default_value : Int) : Except Exception Int :=
  match j with
  | .object members =>
    match members.lookup key with
    | some v => v.get_int ops
    | none => .ok default_value
  | _ => .error (.type_error 306)

/-- Method `value(key, default)` with a `double` default. -/
def Json.value_double {F : Type} (ops : DoubleOps F) (j : Json F) (key : String)
    (default_value : F) : Except Exception F :=
  match j with
  | .object members =>
    match members.lookup key with
    | some v => v.get_double ops
    | none => .ok default_value
  | _ => .error (.type_error 306)

/-! ## DuckDB values, bind data, data chunks -/

inductive LogicalType where
  | VARCHAR | INTEGER | BIGINT | BOOLEAN | DOUBLE
deriving DecidableEq, Repr

/-- A DuckDB `Value` (the default-constructed one is `NULL`). -/
inductive Value (F : Type) where
  | NULL
  | VARCHAR (s : String)
  | INTEGER (i : Int)
  | BIGINT (i : Int)
  | BOOLEAN (b : Bool)
  | DOUBLE (x : F)
deriving DecidableEq, Repr

/-- Struct `EcobiciStationStatusBindData`: the row buffer and the cursor offset (`idx_t`). -/
structure EcobiciStationStatusBindData (F : Type) where
  rows : List (List (Value F))
  offset : Nat
deriving DecidableEq, Repr

/-- Struct `EcobiciStationInfoBindData` has the same two fields. -/
abbrev EcobiciStationInfoBindData (F : Type) := EcobiciStationStatusBindData F

/-- Struct `EcobiciSystemInfoBindData` has the same two fields. -/
abbrev EcobiciSystemInfoBindData (F : Type) := EcobiciStationStatusBindData F

/-- What a bind function hands to the host: the column names and types it appended and the
bind data it returns. -/
structure BindResult (F : Type) where
  names : List String
  return_types : List LogicalType
  bind_data : EcobiciStationStatusBindData F
deriving DecidableEq, Repr

/-- The `DataChunk` a pull function fills: `cells col row` is the value at that position. -/
structure DataChunk (F : Type) where
  column_count : Nat
  cells : Nat → Nat → Value F
  cardinality : Nat

/-- Method `DataChunk::SetValue(col, row, val)`. -/
def DataChunk.SetValue {F : Type} (output : DataChunk F) (col row : Nat) (val : Value F) :
    DataChunk F :=
  { output with cells := fun c r => if c = col ∧ r = row then val else output.cells c r }

/-- Method `DataChunk::SetCardinality(count)`. -/
def DataChunk.SetCardinality {F : Type} (output : DataChunk F) (count : Nat) : DataChunk F :=
  { output with cardinality := count }

/-- The rows the host reads from a chunk: `cardinality` rows of `column_count` cells. -/
def DataChunk.rowList {F : Type} (output : DataChunk F) : List (List (Value F)) :=
  (List.range output.cardinality).map fun r =>
    (List.range output.column_count).map fun c => output.cells c r

/-! ## Bind functions -/

/-- Body of the `for` loop of `EcobiciStationStatusBind`: the row of one station. -/
def stationStatusRow {F : Type} (ops : DoubleOps F) (station : Json F) :
    Except Exception (List (Value F)) := do
  let station_id ← station.value_string "station_id" ""
  let num_bikes_available ← station.value_int ops "num_bikes_available" 0
  let num_docks_available ← station.value_int ops "num_docks_available" 0
  let last_reported ← station.value_int ops "last_reported" 0
  let is_installed ← station.value_int ops "is_installed" 1
  let is_renting ← station.value_int ops "is_renting" 1
  let is_returning ← station.value_int ops "is_returning" 1
  pure [.VARCHAR station_id, .INTEGER num_bikes_available, .INTEGER num_docks_available,
    .BIGINT last_reported, .BOOLEAN (decide (is_installed = 1)),
    .BOOLEAN (decide (is_renting = 1)), .BOOLEAN (decide (is_returning = 1))]

/-- Body of the `for` loop of `EcobiciStationInfoBind`: the row of one station. -/
def stationInfoRow {F : Type} (ops : DoubleOps F) (station : Json F) :
    Except Exception (List (Value F)) := do
  let station_id ← station.value_string "station_id" ""
  let name ← station.value_string "name" ""
  let lat ← station.value_double ops "lat" ops.zero
  let lon ← station.value_double ops "lon" ops.zero
  let address ← station.value_string "address" ""
  let capacity ← station.value_int ops "capacity" 0
  pure [.VARCHAR station_id, .VARCHAR name, .DOUBLE lat, .DOUBLE lon, .VARCHAR address,
    .INTEGER capacity]

/-- A `for` loop over JSON values that pushes one row per value onto `rows`; the first
exception ends it. -/
def pushRows {F : Type} (rowOf : Json F → Except Exception (List (Value F))) :
    List (Json F) → List (List (Value F)) → Except Exception (List (List (Value F)))
  | [], rows => .ok rows
  | station :: rest, rows =>
    match rowOf station with
    | .ok row => pushRows rowOf rest (rows ++ [row])
    | .error e => .error e

/-- Rows `EcobiciStationStatusBind` builds from the parsed payload (lines 62 to 74). -/
def stationStatusRows {F : Type} (ops : DoubleOps F) (parsed : Json F) :
    Except Exception (List (List (Value F))) :=
  if parsed.contains "data" then do
    let data ← parsed.index "data"
    if data.contains "stations" then do
      let stations ← data.index "stations"
      pushRows (stationStatusRow ops) stations.elements []
    else pure []
  else pure []

/-- Rows `EcobiciStationInfoBind` builds from the parsed payload (lines 115 to 126). -/
def stationInfoRows {F : Type} (ops : DoubleOps F) (parsed : Json F) :
    Except Exception (List (List (Value F))) :=
  if parsed.contains "data" then do
    let data ← parsed.index "data"
    if data.contains "stations" then do
      let stations ← data.index "stations"
      pushRows (stationInfoRow ops) stations.elements []
    else pure []
  else pure []

/-- Rows `EcobiciSystemInfoBind` builds from the parsed payload (lines 163 to 171). -/
def systemInfoRows {F : Type} (parsed : Json F) : Except Exception (List (List (Value F))) :=
  if parsed.contains "data" then do
    let data_obj ← parsed.index "data"
    let system_id ← data_obj.value_string "system_id" ""
    let language ← data_obj.value_string "language" ""
    let name ← data_obj.value_string "name" ""
    let timezone ← data_obj.value_string "timezone" ""
    pure [[.VARCHAR system_id, .VARCHAR language, .VARCHAR name, .VARCHAR timezone]]
  else pure []

/-- Common shape of the three bind functions: the schema is appended, the feed is fetched,
the body is parsed by `parse` (the library's `json::parse`, which may throw) and the rows are
built; an exception at any step leaves the function. -/
def bindWith {F : Type} (names : List String) (return_types : List LogicalType)
    (feed_name : String) (rowsOf : Json F → Except Exception (List (List (Value F))))
    (parse : String → Except Exception (Json F)) (srv : Server) (log : List Request) :
    Except Exception (BindResult F) × List Request :=
  match FetchGBFSFeed srv log feed_name with
  | (.error e, log1) => (.error e, log1)
  | (.ok json_data, log1) =>
    match parse json_data with
    | .error e => (.error e, log1)
    | .ok parsed =>
      match rowsOf parsed with
      | .error e => (.error e, log1)
      | .ok rows => (.ok ⟨names, return_types, ⟨rows, 0⟩⟩, log1)

/-- Function `EcobiciStationStatusBind`. -/
def EcobiciStationStatusBind {F : Type} (ops : DoubleOps F)
    (parse : String → Except Exception (Json F)) (srv : Server) (log : List Request) :
    Except Exception (BindResult F) × List Request :=
  bindWith ["station_id", "num_bikes_available", "num_docks_available", "last_reported",
      "is_installed", "is_renting", "is_returning"]
    [.VARCHAR, .INTEGER, .INTEGER, .BIGINT, .BOOLEAN, .BOOLEAN, .BOOLEAN]
    "station_status" (stationStatusRows ops) parse srv log

/-- Function `EcobiciStationInfoBind`. -/
def EcobiciStationInfoBind {F : Type} (ops : DoubleOps F)
    (parse : String → Except Exception (Json F)) (srv : Server) (log : List Request) :
    Except Exception (BindResult F) × List Request :=
  bindWith ["station_id", "name", "lat", "lon", "address", "capacity"]
    [.VARCHAR, .VARCHAR, .DOUBLE, .DOUBLE, .VARCHAR, .INTEGER]
    "station_information" (stationInfoRows ops) parse srv log

/-- Function `EcobiciSystemInfoBind`. -/
def EcobiciSystemInfoBind {F : Type} (parse : String → Except Exception (Json F))
    (srv : Server) (log : List Request) : Except Exception (BindResult F) × List Request :=
  bindWith ["system_id", "language", "name", "timezone"]
    [.VARCHAR, .VARCHAR, .VARCHAR, .VARCHAR]
    "system_information" systemInfoRows parse srv log

/-! ## Pull functions -/

/-- The inner `for` loop of a pull function: cell `col` of `row` goes to position
`(col, count)` of the chunk, for every column of the chunk. Reading a row past its end is
undefined in C++; here it reads `NULL`, and it does not happen when the row has as many
cells as the chunk has columns. -/
def copyRow {F : Type} (row : List (Value F)) (count : Nat) (output : DataChunk F) :
    DataChunk F :=
  (List.range output.column_count).foldl
    (fun out col => out.SetValue col count (row.getD col .NULL)) output

/-- The `while` loop shared, word for word, by the three pull functions. `vector_size` is
the host's constant `STANDARD_VECTOR_SIZE`, the batch size. -/
def pullLoop {F : Type} (vector_size : Nat) (data : EcobiciStationStatusBindData F)
    (output : DataChunk F) (count : Nat) :
    EcobiciStationStatusBindData F × DataChunk F × Nat :=
  if data.offset < data.rows.length ∧ count < vector_size then
    pullLoop vector_size { data with offset := data.offset + 1 }
      (copyRow (data.rows.getD data.offset []) count output) (count + 1)
  else (data, output, count)
termination_by vector_size - count
decreasing_by omega

/-- Function `EcobiciStationStatusFunction`: the bind data and the chunk after the call. -/
def EcobiciStationStatusFunction {F : Type} (vector_size : Nat)
    (data : EcobiciStationStatusBindData F) (output : DataChunk F) :
    EcobiciStationStatusBindData F × DataChunk F :=
  let r := pullLoop vector_size data output 0
  (r.1, r.2.1.SetCardinality r.2.2)

/-- Function `EcobiciStationInfoFunction`: the bind data and the chunk after the call. -/
def EcobiciStationInfoFunction {F : Type} (vector_size : Nat)
    (data : EcobiciStationInfoBindData F) (output : DataChunk F) :
    EcobiciStationInfoBindData F × DataChunk F :=
  let r := pullLoop vector_size data output 0
  (r.1, r.2.1.SetCardinality r.2.2)

/-- Function `EcobiciSystemInfoFunction`: the bind data and the chunk after the call. -/
def EcobiciSystemInfoFunction {F : Type} (vector_size : Nat)
    (data : EcobiciSystemInfoBindData F) (output : DataChunk F) :
    EcobiciSystemInfoBindData F × DataChunk F :=
  let r := pullLoop vector_size data output 0
  (r.1, r.2.1.SetCardinality r.2.2)

/-- The three table functions registered by `LoadInternal`. -/
inductive FeedKind where
  | station_status | station_information | system_information
deriving DecidableEq, Repr

/-- The pull function registered for a feed kind. -/
def pullOf {F : Type} (kind : FeedKind) (vector_size : Nat)
    (data : EcobiciStationStatusBindData F) (output : DataChunk F) :
    EcobiciStationStatusBindData F × DataChunk F :=
  match kind with
  | .station_status => EcobiciStationStatusFunction vector_size data output
  | .station_information => EcobiciStationInfoFunction vector_size data output
  | .system_information => EcobiciSystemInfoFunction vector_size data output

/-- The host's pull phase: the pull function is called until it reports a count of 0; the
batches read from the chunk after each call are collected in order. `fuel` bounds the
number of calls, `none` means a count of 0 was not reached within them. -/
def drain {F : Type} (pull : EcobiciStationStatusBindData F → DataChunk F →
    EcobiciStationStatusBindData F × DataChunk F) :
    Nat → EcobiciStationStatusBindData F → DataChunk F → List (List (List (Value F))) →
    Option (List (List (List (Value F))) × EcobiciStationStatusBindData F)
  | 0, _, _, _ => none
  | fuel + 1, data, output, batches =>
    let r := pull data output
    if r.2.cardinality = 0 then some (batches, r.1)
    else drain pull fuel r.1 r.2 (batches ++ [r.2.rowList])

/-- A sequence of pulls, one per listed batch size: the bind data after each call. -/
def pullTrace {F : Type} (kind : FeedKind) :
    List Nat → EcobiciStationStatusBindData F → DataChunk F →
    List (EcobiciStationStatusBindData F)
  | [], _, _ => []
  | vector_size :: rest, data, output =>
    let r := pullOf kind vector_size data output
    r.1 :: pullTrace kind rest r.1 r.2

/-! ## The registered functions by feed kind, and example data -/

/-- Feed name each bind function passes to `FetchGBFSFeed`. -/
def feedName : FeedKind → String
  | .station_status => "station_status"
  | .station_information => "station_information"
  | .system_information => "system_information"

/-- The bind function registered for a feed kind. -/
def bindOf {F : Type} (kind : FeedKind) (ops : DoubleOps F)
    (parse : String → Except Exception (Json F)) (srv : Server) (log : List Request) :
    Except Exception (BindResult F) × List Request :=
  match kind with
  | .station_status => EcobiciStationStatusBind ops parse srv log
  | .station_information => EcobiciStationInfoBind ops parse srv log
  | .system_information => EcobiciSystemInfoBind parse srv log

/-- A float model for examples without floating-point numbers: `F` is `Unit`. -/
def unitOps : DoubleOps Unit := ⟨fun _ => 0, fun _ => (), ()⟩

/-- Example payload of the `station_status` feed: the second station has neither
`is_installed` nor `is_renting`, and reports `is_returning` as 0. -/
def sampleStatus : Json Unit :=
  .object [("data", .object [("stations", .array [
    .object [("is_installed", .number_unsigned 1), ("is_renting", .number_unsigned 1),
      ("is_returning", .number_unsigned 1), ("last_reported", .number_unsigned 1700000000),
      ("num_bikes_available", .number_unsigned 5), ("num_docks_available", .number_unsigned 7),
      ("station_id", .string "001")],
    .object [("is_returning", .number_unsigned 0), ("station_id", .string "002")]])]),
    ("ttl", .number_unsigned 60)]

/-- Example payload without a `data` member. -/
def sampleNoData : Json Unit :=
  .object [("last_updated", .number_unsigned 1700000000), ("ttl", .number_unsigned 60)]

/-- A server that answers every request with status 200 and the given body. -/
def okServer (body : String) : Server := fun _ _ => some ⟨200, body⟩

/-! ## Specification-side notions for the fetcher -/

/-- Spec: an integer "zero-padded to two digits" (`{n:02d}`): one leading zero for 0 to 9,
the plain decimal text otherwise. -/
def zeroPad2 (n : Int) : String :=
  if 0 ≤ n ∧ n < 10 then "0" ++ toString n else toString n

/-- The first request of `FetchHistoricalCSV year month`. -/
def primaryRequest (year month : Int) : Request := ⟨historicalHost, primaryPath year month⟩

/-- The fallback request of `FetchHistoricalCSV year month`. -/
def altRequest (year month : Int) : Request := ⟨historicalHost, altPath year month⟩

/-- The request of `FetchGBFSFeed feed_name`: the path is handed over as a C string. -/
def gbfsRequest (feed_name : String) : Request :=
  ⟨gbfsHost, c_str ("/gbfs/en/" ++ feed_name ++ ".json")⟩

/-- Spec: the requests of one attempt at the month `ym`: its primary request, alone or
followed by its fallback request. -/
def isMonthAttempt (ym : Int × Int) (requests : List Request) : Prop :=
  requests = [primaryRequest ym.1 ym.2] ∨
    requests = [primaryRequest ym.1 ym.2, altRequest ym.1 ym.2]

/-- Message of the exception thrown when both URL patterns of a month failed. -/
def notFoundMessage (year month : Int) : String :=
  "Failed to fetch historical CSV for " ++ toString year ++ "-" ++ toString month
    ++ " - File not found (tried multiple URL patterns)"

/-! ## Theorems: stream formatting -/

theorem wrapInt32_of_isInt32 (i : Int) (h : isInt32 i) : wrapInt32 i = i := by
  unfold isInt32 at h
  unfold wrapInt32
  omega

theorem isInt32_wrapInt32 (i : Int) : isInt32 (wrapInt32 i) := by
  unfold isInt32 wrapInt32
  omega

theorem toDigitsCore_length_ge (b : Nat) :
    ∀ (fuel n : Nat) (acc : List Char),
      acc.length + 1 ≤ (Nat.toDigitsCore b (fuel + 1) n acc).length := by
  intro fuel
  induction fuel with
  | zero =>
    intro n acc
    simp [Nat.toDigitsCore]
  | succ k ih =>
    intro n acc
    rw [Nat.toDigitsCore]
    split
    · simp
    · have := ih (n / b) (Nat.digitChar (n % b) :: acc)
      simp only [List.length_cons] at this
      omega

theorem repr_length_pos (n : Nat) : 1 ≤ (Nat.repr n).length := by
  have := toDigitsCore_length_ge 10 n n []
  simpa [Nat.repr, Nat.toDigits, List.asString] using this

theorem repr_length_two (n : Nat) (h : 10 ≤ n) : 2 ≤ (Nat.repr n).length := by
  obtain ⟨k, rfl⟩ : ∃ k, n = k + 1 := ⟨n - 1, by omega⟩
  have hne : (k + 1) / 10 ≠ 0 := by omega
  have := toDigitsCore_length_ge 10 k ((k + 1) / 10) [Nat.digitChar ((k + 1) % 10)]
  simp only [Nat.repr, Nat.toDigits, List.asString, String.length]
  rw [Nat.toDigitsCore]
  simp only [hne, if_false]
  simpa using this

/-- The stream manipulators `setfill('0')`, `setw(2)` write an `int` zero-padded to two
digits, whatever its value. -/
theorem setw2_eq_zeroPad2 (n : Int) : setw2 n = zeroPad2 n := by
  unfold setw2 zeroPad2
  by_cases h : 0 ≤ n ∧ n < 10
  · obtain ⟨h0, h10⟩ := h
    interval_cases n <;> decide
  · rw [if_neg h]
    have hlen : 2 ≤ (toString n).length := by
      cases n with
      | ofNat k =>
        have hk : 10 ≤ k := by
          have : ¬ ((0 : Int) ≤ (k : Int) ∧ (k : Int) < 10) := h
          omega
        exact repr_length_two k hk
      | negSucc k =>
        have := repr_length_pos (k + 1)
        show 2 ≤ ("-" ++ Nat.repr (k + 1)).length
        rw [String.length_append]
        have h1 : ("-" : String).length = 1 := by decide
        omega
    have hz : 2 - (toString n).length = 0 := by omega
    simp only [hz, List.replicate]
    show String.mk [] ++ toString n = toString n
    exact String.empty_append _

/-! ## Theorems: C strings -/

theorem c_str_of_noNul (s : String) (h : noNul s) : c_str s = s := by
  unfold c_str
  have : s.data.takeWhile (fun c => c != Char.ofNat 0) = s.data := by
    rw [List.takeWhile_eq_self_iff]
    intro c hc
    simpa using h c hc
  rw [this]

theorem noNul_append (s t : String) (hs : noNul s) (ht : noNul t) : noNul (s ++ t) := by
  intro c hc
  rw [String.data_append, List.mem_append] at hc
  rcases hc with h | h
  · exact hs c h
  · exact ht c h

theorem digitChar_ne_nul (d : Nat) (h : d < 10) : Nat.digitChar d ≠ Char.ofNat 0 := by
  interval_cases d <;> decide

theorem toDigitsCore_noNul :
    ∀ (fuel n : Nat) (acc : List Char), (∀ c ∈ acc, c ≠ Char.ofNat 0) →
      ∀ c ∈ Nat.toDigitsCore 10 fuel n acc, c ≠ Char.ofNat 0 := by
  intro fuel
  induction fuel with
  | zero =>
    intro n acc hacc
    simpa [Nat.toDigitsCore] using hacc
  | succ k ih =>
    intro n acc hacc
    have hcons : ∀ c ∈ Nat.digitChar (n % 10) :: acc, c ≠ Char.ofNat 0 := by
      intro c hc
      rcases List.mem_cons.1 hc with h | h
      · rw [h]; exact digitChar_ne_nul _ (Nat.mod_lt _ (by decide))
      · exact hacc c h
    rw [Nat.toDigitsCore]
    split
    · exact hcons
    · exact ih _ _ hcons

theorem noNul_repr (n : Nat) : noNul (Nat.repr n) := by
  intro c hc
  exact toDigitsCore_noNul (n + 1) n [] (by simp) c
    (by simpa [Nat.repr, Nat.toDigits, List.asString] using hc)

theorem noNul_toString_int (i : Int) : noNul (toString i) := by
  cases i with
  | ofNat k => exact noNul_repr k
  | negSucc k =>
    show noNul ("-" ++ Nat.repr (k + 1))
    exact noNul_append _ _ (by decide) (noNul_repr _)

theorem noNul_setw2 (n : Int) : noNul (setw2 n) := by
  unfold setw2
  intro c hc
  simp only [String.data_append, List.mem_append, List.mem_replicate] at hc
  rcases hc with h | h
  · rw [h.2]; decide
  · exact noNul_toString_int n c h

theorem c_str_primaryPath (year month : Int) :
    c_str (primaryPath year month) = primaryPath year month := by
  apply c_str_of_noNul
  have hy := noNul_toString_int year
  exact noNul_append _ _ (noNul_append _ _ (noNul_append _ _ (noNul_append _ _
    (noNul_append _ _ (noNul_append _ _ (noNul_append _ _ (noNul_append _ _ (by decide) hy)
    (by decide)) (noNul_setw2 month)) (by decide)) hy) (by decide))
    (noNul_setw2 (wrapInt32 (month - 1)))) (by decide)

theorem c_str_altPath (year month : Int) :
    c_str (altPath year month) = altPath year month := by
  apply c_str_of_noNul
  have hy := noNul_toString_int year
  exact noNul_append _ _ (noNul_append _ _ (noNul_append _ _ (noNul_append _ _
    (noNul_append _ _ (noNul_append _ _ (noNul_append _ _ (noNul_append _ _ (by decide) hy)
    (by decide)) (noNul_setw2 month)) (by decide)) hy) (by decide))
    (noNul_setw2 month)) (by decide)

/-! ## Theorems: the feed fetcher -/

theorem FetchGBFSFeed_none (srv : Server) (log : List Request) (feed_name : String)
    (h : srv log (gbfsRequest feed_name) = none) :
    FetchGBFSFeed srv log feed_name =
      (.error (.IOException ("Failed to fetch GBFS feed: " ++ feed_name ++ " - Connection error")),
        log ++ [gbfsRequest feed_name]) := by
  unfold gbfsRequest at h
  simp only [FetchGBFSFeed, clientGet, gbfsRequest, h]

theorem FetchGBFSFeed_status (srv : Server) (log : List Request) (feed_name : String)
    (res : Response) (h : srv log (gbfsRequest feed_name) = some res)
    (hs : res.status ≠ 200) :
    FetchGBFSFeed srv log feed_name =
      (.error (.IOException
        ("Failed to fetch GBFS feed: " ++ feed_name ++ " - HTTP " ++ toString res.status)),
        log ++ [gbfsRequest feed_name]) := by
  unfold gbfsRequest at h
  simp only [FetchGBFSFeed, clientGet, gbfsRequest, h, hs, ne_eq, not_false_eq_true, if_true]

theorem FetchGBFSFeed_ok (srv : Server) (log : List Request) (feed_name : String)
    (res : Response) (h : srv log (gbfsRequest feed_name) = some res)
    (hs : res.status = 200) :
    FetchGBFSFeed srv log feed_name = (.ok res.body, log ++ [gbfsRequest feed_name]) := by
  unfold gbfsRequest at h
  simp only [FetchGBFSFeed, clientGet, gbfsRequest, h, hs, ne_eq, not_true_eq_false, if_false]

theorem FetchHistoricalCSV_none (srv : Server) (log : List Request) (year month : Int)
    (h : srv log (primaryRequest year month) = none) :
    FetchHistoricalCSV srv log year month =
      (.error (.IOException ("Failed to fetch historical CSV for " ++ toString year ++ "-"
        ++ toString month ++ " - Connection error")), log ++ [primaryRequest year month]) := by
  unfold primaryRequest at h
  simp only [FetchHistoricalCSV, clientGet, c_str_primaryPath, c_str_altPath, primaryRequest, h]

theorem FetchHistoricalCSV_status (srv : Server) (log : List Request) (year month : Int)
    (res : Response) (h : srv log (primaryRequest year month) = some res)
    (h200 : res.status ≠ 200) (h404 : res.status ≠ 404) :
    FetchHistoricalCSV srv log year month =
      (.error (.IOException ("Failed to fetch historical CSV for " ++ toString year ++ "-"
        ++ toString month ++ " - HTTP " ++ toString res.status)),
        log ++ [primaryRequest year month]) := by
  unfold primaryRequest at h
  simp only [FetchHistoricalCSV, clientGet, c_str_primaryPath, c_str_altPath, primaryRequest, h, h200, h404, ne_eq,
    not_false_eq_true, if_true, if_false]

theorem FetchHistoricalCSV_ok (srv : Server) (log : List Request) (year month : Int)
    (res : Response) (h : srv log (primaryRequest year month) = some res)
    (h200 : res.status = 200) :
    FetchHistoricalCSV srv log year month =
      (.ok res.body, log ++ [primaryRequest year month]) := by
  have h404 : res.status ≠ 404 := by rw [h200]; decide
  unfold primaryRequest at h
  simp only [FetchHistoricalCSV, clientGet, c_str_primaryPath, c_str_altPath, primaryRequest, h]
  rw [if_neg h404, if_neg (by simp [h200])]

theorem FetchHistoricalCSV_alt_none (srv : Server) (log : List Request) (year month : Int)
    (res : Response) (h : srv log (primaryRequest year month) = some res)
    (h404 : res.status = 404)
    (ha : srv (log ++ [primaryRequest year month]) (altRequest year month) = none) :
    FetchHistoricalCSV srv log year month =
      (.error (.IOException (notFoundMessage year month)),
        log ++ [primaryRequest year month, altRequest year month]) := by
  unfold primaryRequest at h
  unfold primaryRequest altRequest at ha
  simp only [FetchHistoricalCSV, clientGet, c_str_primaryPath, c_str_altPath, primaryRequest, altRequest, notFoundMessage, h,
    h404, ha, if_true, List.append_assoc, List.singleton_append]

theorem FetchHistoricalCSV_alt_status (srv : Server) (log : List Request) (year month : Int)
    (res res2 : Response) (h : srv log (primaryRequest year month) = some res)
    (h404 : res.status = 404)
    (ha : srv (log ++ [primaryRequest year month]) (altRequest year month) = some res2)
    (h2 : res2.status ≠ 200) :
    FetchHistoricalCSV srv log year month =
      (.error (.IOException (notFoundMessage year month)),
        log ++ [primaryRequest year month, altRequest year month]) := by
  unfold primaryRequest at h
  unfold primaryRequest altRequest at ha
  simp only [FetchHistoricalCSV, clientGet, c_str_primaryPath, c_str_altPath, primaryRequest, altRequest, notFoundMessage, h,
    h404, ha, h2, ne_eq, not_false_eq_true, if_true, List.append_assoc, List.singleton_append]

theorem FetchHistoricalCSV_alt_ok (srv : Server) (log : List Request) (year month : Int)
    (res res2 : Response) (h : srv log (primaryRequest year month) = some res)
    (h404 : res.status = 404)
    (ha : srv (log ++ [primaryRequest year month]) (altRequest year month) = some res2)
    (h2 : res2.status = 200) :
    FetchHistoricalCSV srv log year month =
      (.ok res2.body, log ++ [primaryRequest year month, altRequest year month]) := by
  unfold primaryRequest at h
  unfold primaryRequest altRequest at ha
  simp only [FetchHistoricalCSV, clientGet, c_str_primaryPath, c_str_altPath, primaryRequest, altRequest, h,
    h404, ha, h2, ne_eq, not_true_eq_false, if_true, if_false, List.append_assoc,
    List.singleton_append]

theorem FetchHistoricalCSV_log (srv : Server) (log : List Request) (year month : Int) :
    (FetchHistoricalCSV srv log year month).2 = log ++ [primaryRequest year month] ∨
    (FetchHistoricalCSV srv log year month).2 =
      log ++ [primaryRequest year month, altRequest year month] := by
  cases hp : srv log (primaryRequest year month) with
  | none => rw [FetchHistoricalCSV_none _ _ _ _ hp]; exact Or.inl rfl
  | some res =>
    by_cases h404 : res.status = 404
    · right
      cases ha : srv (log ++ [primaryRequest year month]) (altRequest year month) with
      | none => rw [FetchHistoricalCSV_alt_none _ _ _ _ res hp h404 ha]
      | some res2 =>
        by_cases h2 : res2.status = 200
        · rw [FetchHistoricalCSV_alt_ok _ _ _ _ res res2 hp h404 ha h2]
        · rw [FetchHistoricalCSV_alt_status _ _ _ _ res res2 hp h404 ha h2]
    · left
      by_cases h200 : res.status = 200
      · rw [FetchHistoricalCSV_ok _ _ _ _ res hp h200]
      · rw [FetchHistoricalCSV_status _ _ _ _ res hp h200 h404]

theorem FetchHistoricalCSV_error_is_IOException (srv : Server) (log : List Request)
    (year month : Int) (e : Exception)
    (h : (FetchHistoricalCSV srv log year month).1 = .error e) :
    ∃ msg, e = .IOException msg := by
  cases hp : srv log (primaryRequest year month) with
  | none =>
    rw [FetchHistoricalCSV_none _ _ _ _ hp] at h
    exact ⟨_, (Except.error.inj h).symm⟩
  | some res =>
    by_cases h404 : res.status = 404
    · cases ha : srv (log ++ [primaryRequest year month]) (altRequest year month) with
      | none =>
        rw [FetchHistoricalCSV_alt_none _ _ _ _ res hp h404 ha] at h
        exact ⟨_, (Except.error.inj h).symm⟩
      | some res2 =>
        by_cases h2 : res2.status = 200
        · rw [FetchHistoricalCSV_alt_ok _ _ _ _ res res2 hp h404 ha h2] at h
          cases h
        · rw [FetchHistoricalCSV_alt_status _ _ _ _ res res2 hp h404 ha h2] at h
          exact ⟨_, (Except.error.inj h).symm⟩
    · by_cases h200 : res.status = 200
      · rw [FetchHistoricalCSV_ok _ _ _ _ res hp h200] at h
        cases h
      · rw [FetchHistoricalCSV_status _ _ _ _ res hp h200 h404] at h
        exact ⟨_, (Except.error.inj h).symm⟩

theorem FetchHistoricalCSV_log_of_404 (srv : Server) (log : List Request) (year month : Int)
    (res : Response) (hres : srv log (primaryRequest year month) = some res)
    (h404 : res.status = 404) :
    (FetchHistoricalCSV srv log year month).2 =
      log ++ [primaryRequest year month, altRequest year month] := by
  cases ha : srv (log ++ [primaryRequest year month]) (altRequest year month) with
  | none => rw [FetchHistoricalCSV_alt_none _ _ _ _ res hres h404 ha]
  | some res2 =>
    by_cases h2 : res2.status = 200
    · rw [FetchHistoricalCSV_alt_ok _ _ _ _ res res2 hres h404 ha h2]
    · rw [FetchHistoricalCSV_alt_status _ _ _ _ res res2 hres h404 ha h2]

/-- C8 (amended): `FetchGBFSFeed feed_name` makes exactly one `Get`, for the path
`/gbfs/en/` + feed_name + `.json` taken as a C string, which is that whole path when
feed_name holds no NUL character; its result is a function of that response alone: it
returns a body exactly when the status is 200, and then the response body unchanged; an
empty result (transport failure) throws the message naming the feed and ending in
`Connection error`; any other status throws the message naming the feed and ending in
`HTTP ` followed by the decimal status code. -/
theorem FetchGBFSFeed_decided_by_response (srv : Server) (log : List Request)
    (feed_name : String) :
    (FetchGBFSFeed srv log feed_name).2 = log ++ [gbfsRequest feed_name] ∧
    (gbfsRequest feed_name).path = c_str ("/gbfs/en/" ++ feed_name ++ ".json") ∧
    (noNul feed_name →
      (gbfsRequest feed_name).path = "/gbfs/en/" ++ feed_name ++ ".json") ∧
    (∀ body, (FetchGBFSFeed srv log feed_name).1 = .ok body ↔
      ∃ res, srv log (gbfsRequest feed_name) = some res ∧ res.status = 200 ∧
        body = res.body) ∧
    (srv log (gbfsRequest feed_name) = none →
      (FetchGBFSFeed srv log feed_name).1 = .error (.IOException
        ("Failed to fetch GBFS feed: " ++ feed_name ++ " - Connection error"))) ∧
    (∀ res, srv log (gbfsRequest feed_name) = some res → res.status ≠ 200 →
      (FetchGBFSFeed srv log feed_name).1 = .error (.IOException
        ("Failed to fetch GBFS feed: " ++ feed_name ++ " - HTTP " ++ toString res.status))) := by
  have hpath : noNul feed_name →
      (gbfsRequest feed_name).path = "/gbfs/en/" ++ feed_name ++ ".json" := by
    intro hn
    exact c_str_of_noNul _ (noNul_append _ _ (noNul_append _ _ (by decide) hn) (by decide))
  cases hs : srv log (gbfsRequest feed_name) with
  | none =>
    rw [FetchGBFSFeed_none _ _ _ hs]
    refine ⟨rfl, rfl, hpath, ?_, fun _ => rfl, ?_⟩
    · intro body
      constructor
      · intro h
        cases h
      · rintro ⟨res, h, -⟩
        cases h
    · intro res h
      cases h
  | some res =>
    by_cases h200 : res.status = 200
    · rw [FetchGBFSFeed_ok _ _ _ res hs h200]
      refine ⟨rfl, rfl, hpath, ?_, ?_, ?_⟩
      · intro body
        constructor
        · intro h
          exact ⟨res, rfl, h200, (Except.ok.inj h).symm⟩
        · rintro ⟨res1, h1, -, h3⟩
          cases h1
          rw [h3]
      · intro h
        cases h
      · intro res1 h1 h2
        cases h1
        exact absurd h200 h2
    · rw [FetchGBFSFeed_status _ _ _ res hs h200]
      refine ⟨rfl, rfl, hpath, ?_, ?_, ?_⟩
      · intro body
        constructor
        · intro h
          cases h
        · rintro ⟨res1, h1, h2, -⟩
          cases h1
          exact absurd h2 h200
      · intro h
        cases h
      · intro res1 h1 _
        cases h1
        rfl

/-- Check of C8 at the feed name `station_status` on a server that answers 503 to
everything: the name holds no NUL, one request goes to `/gbfs/en/station_status.json`, and
the message names the feed and carries the code. -/
theorem FetchGBFSFeed_decided_by_response_witness :
    noNul "station_status" ∧
    FetchGBFSFeed (fun _ _ => some ⟨503, "busy"⟩) [] "station_status" =
      (.error (.IOException "Failed to fetch GBFS feed: station_status - HTTP 503"),
        [⟨"https://gbfs.mex.lyftbikes.com", "/gbfs/en/station_status.json"⟩]) := by
  have h := FetchGBFSFeed_decided_by_response (fun _ _ => some ⟨503, "busy"⟩) []
    "station_status"
  refine ⟨by decide, Prod.ext ?_ ?_⟩
  · exact (h.2.2.2.2.2 ⟨503, "busy"⟩ rfl (by decide)).trans (by decide)
  · exact h.1.trans (by decide)

/-- C8 as stated fails at the feed name made of `a`, a NUL character and `b`: the one
request goes to the path `/gbfs/en/a`, where the C string ends, and not to `/gbfs/en/` +
feed_name + `.json`. -/
theorem FetchGBFSFeed_nul_truncates :
    (FetchGBFSFeed (fun _ _ => none) [] (String.mk ['a', Char.ofNat 0, 'b'])).2 =
      [⟨"https://gbfs.mex.lyftbikes.com", "/gbfs/en/a"⟩] ∧
    (FetchGBFSFeed (fun _ _ => none) [] (String.mk ['a', Char.ofNat 0, 'b'])).2 ≠
      [⟨"https://gbfs.mex.lyftbikes.com",
        "/gbfs/en/" ++ String.mk ['a', Char.ofNat 0, 'b'] ++ ".json"⟩] := by
  decide

/-- C6: for every year and every month from 1 to 12 the first request of
`FetchHistoricalCSV` goes to `/wp-content/uploads/` + year + `/` + month padded to two
digits + `/` + year + `-` + (month - 1) padded to two digits + `.csv`. -/
theorem FetchHistoricalCSV_primary_path (srv : Server) (log : List Request)
    (year month : Int) (h1 : 1 ≤ month) (h12 : month ≤ 12) :
    ((FetchHistoricalCSV srv log year month).2.drop log.length).head? =
      some (primaryRequest year month) ∧
    (primaryRequest year month).path =
      "/wp-content/uploads/" ++ toString year ++ "/" ++ zeroPad2 month ++ "/" ++ toString year
        ++ "-" ++ zeroPad2 (month - 1) ++ ".csv" := by
  constructor
  · rcases FetchHistoricalCSV_log srv log year month with h | h <;> rw [h] <;> simp
  · have hw : wrapInt32 (month - 1) = month - 1 :=
      wrapInt32_of_isInt32 _ (by unfold isInt32; omega)
    simp only [primaryRequest, primaryPath, hw, setw2_eq_zeroPad2]

/-- C6 at year 2023, month 3: the first request goes to
`/wp-content/uploads/2023/03/2023-02.csv`. -/
theorem FetchHistoricalCSV_primary_path_witness :
    ((1 : Int) ≤ 3 ∧ (3 : Int) ≤ 12) ∧
    ((FetchHistoricalCSV (fun _ _ => none) [] 2023 3).2.drop 0).head? =
      some ⟨"https://ecobici.cdmx.gob.mx", "/wp-content/uploads/2023/03/2023-02.csv"⟩ := by
  refine ⟨by decide, ?_⟩
  have h := (FetchHistoricalCSV_primary_path (fun _ _ => none) [] 2023 3
    (by decide) (by decide)).1
  exact h.trans (by decide)

/-- C4: when the primary request of `FetchHistoricalCSV` is answered with status 404,
exactly one more request is made, to the alternate path (month padded to two digits in both
places); an empty result or a status other than 200 there throws the message ending in
`File not found (tried multiple URL patterns)`, and a 200 returns the alternate body. -/
theorem FetchHistoricalCSV_fallback_on_404 (srv : Server) (log : List Request)
    (year month : Int) (res : Response)
    (hres : srv log (primaryRequest year month) = some res) (h404 : res.status = 404) :
    (FetchHistoricalCSV srv log year month).2 =
      log ++ [primaryRequest year month, altRequest year month] ∧
    (altRequest year month).path =
      "/wp-content/uploads/" ++ toString year ++ "/" ++ zeroPad2 month ++ "/" ++ toString year
        ++ "-" ++ zeroPad2 month ++ ".csv" ∧
    (srv (log ++ [primaryRequest year month]) (altRequest year month) = none →
      (FetchHistoricalCSV srv log year month).1 =
        .error (.IOException (notFoundMessage year month))) ∧
    (∀ res2, srv (log ++ [primaryRequest year month]) (altRequest year month) = some res2 →
      (res2.status ≠ 200 → (FetchHistoricalCSV srv log year month).1 =
        .error (.IOException (notFoundMessage year month))) ∧
      (res2.status = 200 → (FetchHistoricalCSV srv log year month).1 = .ok res2.body)) := by
  have hpath : (altRequest year month).path =
      "/wp-content/uploads/" ++ toString year ++ "/" ++ zeroPad2 month ++ "/" ++ toString year
        ++ "-" ++ zeroPad2 month ++ ".csv" := by
    simp only [altRequest, altPath, setw2_eq_zeroPad2]
  refine ⟨FetchHistoricalCSV_log_of_404 srv log year month res hres h404, hpath, ?_, ?_⟩
  · intro ha
    rw [FetchHistoricalCSV_alt_none _ _ _ _ res hres h404 ha]
  · intro res2 ha
    constructor
    · intro h2
      rw [FetchHistoricalCSV_alt_status _ _ _ _ res res2 hres h404 ha h2]
    · intro h2
      rw [FetchHistoricalCSV_alt_ok _ _ _ _ res res2 hres h404 ha h2]

/-- C4 at year 2023, month 3 on an archive without that month: the primary 404 is followed
by one request to `/wp-content/uploads/2023/03/2023-03.csv`, and no third one. -/
theorem FetchHistoricalCSV_fallback_on_404_witness :
    (archiveServer [] [] (primaryRequest 2023 3) = some ⟨404, ""⟩ ∧
      (⟨404, ""⟩ : Response).status = 404) ∧
    FetchHistoricalCSV (archiveServer []) [] 2023 3 =
      (.error (.IOException
        "Failed to fetch historical CSV for 2023-3 - File not found (tried multiple URL patterns)"),
      [⟨"https://ecobici.cdmx.gob.mx", "/wp-content/uploads/2023/03/2023-02.csv"⟩,
       ⟨"https://ecobici.cdmx.gob.mx", "/wp-content/uploads/2023/03/2023-03.csv"⟩]) := by
  refine ⟨⟨by decide, rfl⟩, ?_⟩
  have h := FetchHistoricalCSV_fallback_on_404 (archiveServer []) [] 2023 3 ⟨404, ""⟩
    (by decide) rfl
  refine Prod.ext ?_ ?_
  · exact ((h.2.2.2 ⟨404, ""⟩ (by decide)).1 (by decide)).trans (by decide)
  · exact h.1.trans (by decide)

/-- C7: the fallback request of `FetchHistoricalCSV` is made exactly when the primary
request is answered with status 404. An empty primary result throws the connection error
after one request; a primary status that is neither 200 nor 404 throws the HTTP error with
that status code after one request; a primary 200 returns its body after one request. -/
theorem FetchHistoricalCSV_fallback_iff_404 (srv : Server) (log : List Request)
    (year month : Int) :
    ((FetchHistoricalCSV srv log year month).2 =
        log ++ [primaryRequest year month, altRequest year month] ↔
      ∃ res, srv log (primaryRequest year month) = some res ∧ res.status = 404) ∧
    ((FetchHistoricalCSV srv log year month).2 = log ++ [primaryRequest year month] ↔
      ¬ ∃ res, srv log (primaryRequest year month) = some res ∧ res.status = 404) ∧
    (srv log (primaryRequest year month) = none →
      FetchHistoricalCSV srv log year month =
        (.error (.IOException ("Failed to fetch historical CSV for " ++ toString year ++ "-"
          ++ toString month ++ " - Connection error")), log ++ [primaryRequest year month])) ∧
    (∀ res, srv log (primaryRequest year month) = some res →
      res.status ≠ 200 → res.status ≠ 404 →
      FetchHistoricalCSV srv log year month =
        (.error (.IOException ("Failed to fetch historical CSV for " ++ toString year ++ "-"
          ++ toString month ++ " - HTTP " ++ toString res.status)),
          log ++ [primaryRequest year month])) ∧
    (∀ res, srv log (primaryRequest year month) = some res → res.status = 200 →
      FetchHistoricalCSV srv log year month =
        (.ok res.body, log ++ [primaryRequest year month])) := by
  have hone : ∀ (r : Except Exception String),
      FetchHistoricalCSV srv log year month = (r, log ++ [primaryRequest year month]) →
      (¬ ∃ res, srv log (primaryRequest year month) = some res ∧ res.status = 404) →
      ((FetchHistoricalCSV srv log year month).2 =
          log ++ [primaryRequest year month, altRequest year month] ↔
        ∃ res, srv log (primaryRequest year month) = some res ∧ res.status = 404) ∧
      ((FetchHistoricalCSV srv log year month).2 = log ++ [primaryRequest year month] ↔
        ¬ ∃ res, srv log (primaryRequest year month) = some res ∧ res.status = 404) := by
    intro r hr hn
    rw [hr]
    refine ⟨⟨fun h => ?_, fun h => absurd h hn⟩, ⟨fun _ => hn, fun _ => rfl⟩⟩
    simp at h
  refine ⟨?_, ?_, fun h => FetchHistoricalCSV_none _ _ _ _ h,
    fun res h h200 h404 => FetchHistoricalCSV_status _ _ _ _ res h h200 h404,
    fun res h h200 => FetchHistoricalCSV_ok _ _ _ _ res h h200⟩
  all_goals
    cases hp : srv log (primaryRequest year month) with
    | none =>
      have := hone _ (FetchHistoricalCSV_none _ _ _ _ hp) (by rw [hp]; simp)
      rw [hp] at this
      first | exact this.1 | exact this.2
    | some res =>
      by_cases h404 : res.status = 404
      · have htwo := FetchHistoricalCSV_log_of_404 srv log year month res hp h404
        rw [htwo]
        first
          | exact ⟨fun _ => ⟨res, rfl, h404⟩, fun _ => rfl⟩
          | exact ⟨fun h => by simp at h, fun h => absurd ⟨res, rfl, h404⟩ h⟩
      · have hn : ¬ ∃ res1, srv log (primaryRequest year month) = some res1 ∧
            res1.status = 404 := by
          rw [hp]
          rintro ⟨res1, h1, h2⟩
          cases h1
          exact h404 h2
        by_cases h200 : res.status = 200
        · have := hone _ (FetchHistoricalCSV_ok _ _ _ _ res hp h200) hn
          rw [hp] at this
          first | exact this.1 | exact this.2
        · have := hone _ (FetchHistoricalCSV_status _ _ _ _ res hp h200 h404) hn
          rw [hp] at this
          first | exact this.1 | exact this.2

/-- Check of C7 on a server that answers 500 to everything: one request, no fallback. -/
theorem FetchHistoricalCSV_fallback_iff_404_witness :
    FetchHistoricalCSV (fun _ _ => some ⟨500, ""⟩) [] 2023 3 =
      (.error (.IOException "Failed to fetch historical CSV for 2023-3 - HTTP 500"),
        [⟨"https://ecobici.cdmx.gob.mx", "/wp-content/uploads/2023/03/2023-02.csv"⟩]) := by
  have h := (FetchHistoricalCSV_fallback_iff_404 (fun _ _ => some ⟨500, ""⟩) [] 2023 3).2.2.2.1
    ⟨500, ""⟩ rfl (by decide) (by decide)
  exact h.trans (by decide)

/-! ## Theorems: the range walker -/

theorem rangeLoop_done (srv : Server) (end_year end_month : Int) (fuel : Nat)
    (st : RangeState) (h : ¬ rangeCond end_year end_month st) :
    rangeLoop srv end_year end_month fuel st = some ⟨.ok st.results, st.log, st.calls⟩ := by
  cases fuel <;> simp [rangeLoop, h]

theorem rangeLoop_zero (srv : Server) (end_year end_month : Int) (st : RangeState)
    (h : rangeCond end_year end_month st) :
    rangeLoop srv end_year end_month 0 st = none := by
  simp [rangeLoop, h]

theorem rangeLoop_ok (srv : Server) (end_year end_month : Int) (fuel : Nat) (st : RangeState)
    (h : rangeCond end_year end_month st) (body : String) (log1 : List Request)
    (hf : FetchHistoricalCSV srv st.log st.current_year st.current_month = (.ok body, log1)) :
    rangeLoop srv end_year end_month (fuel + 1) st =
      rangeLoop srv end_year end_month fuel
        (advanceMonth { st with log := log1,
                                calls := st.calls ++ [(st.current_year, st.current_month)],
                                results := st.results ++ [body] }) := by
  simp [rangeLoop, h, hf]

theorem rangeLoop_caught (srv : Server) (end_year end_month : Int) (fuel : Nat)
    (st : RangeState) (h : rangeCond end_year end_month st) (e : Exception)
    (log1 : List Request)
    (hf : FetchHistoricalCSV srv st.log st.current_year st.current_month = (.error e, log1)) :
    rangeLoop srv end_year end_month (fuel + 1) st =
      rangeLoop srv end_year end_month fuel
        (advanceMonth { st with log := log1,
                                calls := st.calls ++ [(st.current_year, st.current_month)] }) := by
  obtain ⟨msg, rfl⟩ := FetchHistoricalCSV_error_is_IOException srv st.log st.current_year
    st.current_month e (by rw [hf])
  simp [rangeLoop, h, hf]

theorem advanceMonth_eq_nextMonth (st : RangeState) (h1 : 1 ≤ st.current_month)
    (h12 : st.current_month ≤ 12)
    (hy : st.current_month = 12 → isInt32 (st.current_year + 1)) :
    advanceMonth st =
      { st with current_year := (nextMonth (st.current_year, st.current_month)).1,
                current_month := (nextMonth (st.current_year, st.current_month)).2 } := by
  have hw : wrapInt32 (st.current_month + 1) = st.current_month + 1 :=
    wrapInt32_of_isInt32 _ (by unfold isInt32; omega)
  unfold advanceMonth nextMonth
  simp only [hw]
  by_cases h : st.current_month = 12
  · have hgt : st.current_month + 1 > 12 := by omega
    rw [if_pos hgt, if_pos h, wrapInt32_of_isInt32 _ (hy h)]
  · have hgt : ¬ st.current_month + 1 > 12 := by omega
    rw [if_neg hgt, if_neg h]

theorem nextMonth_range (ym : Int × Int) (h1 : 1 ≤ ym.2) (h12 : ym.2 ≤ 12) :
    1 ≤ (nextMonth ym).2 ∧ (nextMonth ym).2 ≤ 12 ∧
    12 * (nextMonth ym).1 + (nextMonth ym).2 = 12 * ym.1 + ym.2 + 1 := by
  unfold nextMonth
  by_cases h : ym.2 = 12
  · rw [if_pos h]
    simp only
    omega
  · rw [if_neg h]
    simp only
    omega

theorem monthSeq_length (n : Nat) : ∀ ym : Int × Int, (monthSeq n ym).length = n := by
  induction n with
  | zero => intro ym; rfl
  | succ k ih => intro ym; simp [monthSeq, ih]

theorem monthSeq_mem (n : Nat) :
    ∀ (ym : Int × Int), 1 ≤ ym.2 → ym.2 ≤ 12 → ∀ x : Int × Int,
      (x ∈ monthSeq n ym ↔
        1 ≤ x.2 ∧ x.2 ≤ 12 ∧ 12 * ym.1 + ym.2 ≤ 12 * x.1 + x.2 ∧
          12 * x.1 + x.2 < 12 * ym.1 + ym.2 + n) := by
  induction n with
  | zero =>
    intro ym _ _ x
    simp only [monthSeq, List.not_mem_nil, false_iff]
    omega
  | succ k ih =>
    intro ym h1 h12 x
    obtain ⟨hn1, hn12, hidx⟩ := nextMonth_range ym h1 h12
    simp only [monthSeq, List.mem_cons, ih (nextMonth ym) hn1 hn12 x]
    constructor
    · rintro (rfl | h)
      · omega
      · omega
    · intro h
      by_cases hx : 12 * x.1 + x.2 = 12 * ym.1 + ym.2
      · left
        have hx2 : x.2 = ym.2 := by omega
        have hx1 : x.1 = ym.1 := by omega
        exact Prod.ext hx1 hx2
      · right
        omega

theorem monthSeq_pairwise (n : Nat) :
    ∀ (ym : Int × Int), 1 ≤ ym.2 → ym.2 ≤ 12 → (monthSeq n ym).Pairwise monthLt := by
  induction n with
  | zero => intro ym _ _; exact List.Pairwise.nil
  | succ k ih =>
    intro ym h1 h12
    obtain ⟨hn1, hn12, hidx⟩ := nextMonth_range ym h1 h12
    simp only [monthSeq, List.pairwise_cons]
    refine ⟨?_, ih (nextMonth ym) hn1 hn12⟩
    intro x hx
    have := (monthSeq_mem k (nextMonth ym) hn1 hn12 x).1 hx
    unfold monthLt
    omega

/-- With months from 1 to 12 on both ends and no overflow of the year counter, the loop of
`FetchHistoricalCSVRange` ends within `monthCount` iterations, having called
`FetchHistoricalCSV` for the consecutive months from the current one to the end month and
kept the bodies of the calls that returned. -/
theorem rangeLoop_months (srv : Server) (end_year end_month : Int)
    (he1 : 1 ≤ end_month) (he12 : end_month ≤ 12) (hey : isInt32 end_year)
    (hno : end_year < 2147483647 ∨ end_month < 12) :
    ∀ (n : Nat) (st : RangeState), 1 ≤ st.current_month → st.current_month ≤ 12 →
      isInt32 st.current_year →
      monthCount st.current_year st.current_month end_year end_month = n →
      ∀ fuel, n ≤ fuel →
        rangeLoop srv end_year end_month fuel st =
          some ⟨.ok (st.results ++ okBodies
              (fetchEach srv st.log (monthSeq n (st.current_year, st.current_month))).1),
            (fetchEach srv st.log (monthSeq n (st.current_year, st.current_month))).2,
            st.calls ++ monthSeq n (st.current_year, st.current_month)⟩ := by
  intro n
  induction n with
  | zero =>
    intro st h1 h12 hy hn fuel _
    have hc : ¬ rangeCond end_year end_month st := by
      unfold monthCount at hn
      unfold rangeCond
      omega
    rw [rangeLoop_done srv end_year end_month fuel st hc]
    simp [monthSeq, fetchEach, okBodies]
  | succ k ih =>
    intro st h1 h12 hy hn fuel hfuel
    obtain ⟨f, rfl⟩ : ∃ f, fuel = f + 1 := ⟨fuel - 1, by omega⟩
    have hc : rangeCond end_year end_month st := by
      unfold monthCount at hn
      unfold rangeCond
      omega
    unfold isInt32 at hy hey
    have hnext := nextMonth_range (st.current_year, st.current_month) h1 h12
    have hy1 : st.current_month = 12 → isInt32 (st.current_year + 1) := by
      intro h
      unfold rangeCond at hc
      unfold isInt32
      omega
    have hynext : isInt32 (nextMonth (st.current_year, st.current_month)).1 := by
      unfold nextMonth
      by_cases h : st.current_month = 12
      · simp only [h, if_true]
        exact hy1 h
      · simp only [h, if_false]
        exact hy
    have hcount : monthCount (nextMonth (st.current_year, st.current_month)).1
        (nextMonth (st.current_year, st.current_month)).2 end_year end_month = k := by
      unfold monthCount at hn ⊢
      simp only at hnext
      omega
    cases hf : FetchHistoricalCSV srv st.log st.current_year st.current_month with
    | mk r log1 =>
      cases r with
      | ok body =>
        rw [rangeLoop_ok srv end_year end_month f st hc body log1 hf,
          advanceMonth_eq_nextMonth ⟨log1, st.calls ++ [(st.current_year, st.current_month)],
            st.results ++ [body], st.current_year, st.current_month⟩ h1 h12 hy1]
        rw [ih ⟨log1, st.calls ++ [(st.current_year, st.current_month)], st.results ++ [body],
          (nextMonth (st.current_year, st.current_month)).1,
          (nextMonth (st.current_year, st.current_month)).2⟩
          hnext.1 hnext.2.1 hynext hcount f (by omega)]
        simp [monthSeq, fetchEach, okBodies, hf]
      | error e =>
        rw [rangeLoop_caught srv end_year end_month f st hc e log1 hf,
          advanceMonth_eq_nextMonth ⟨log1, st.calls ++ [(st.current_year, st.current_month)],
            st.results, st.current_year, st.current_month⟩ h1 h12 hy1]
        rw [ih ⟨log1, st.calls ++ [(st.current_year, st.current_month)], st.results,
          (nextMonth (st.current_year, st.current_month)).1,
          (nextMonth (st.current_year, st.current_month)).2⟩
          hnext.1 hnext.2.1 hynext hcount f (by omega)]
        simp [monthSeq, fetchEach, okBodies, hf]

/-- Whatever the arguments and the fuel, a run of `FetchHistoricalCSVRange` that ends does
not end with an exception. -/
theorem rangeLoop_no_exception (srv : Server) (end_year end_month : Int) :
    ∀ (fuel : Nat) (st : RangeState) (o : RangeOutcome),
      rangeLoop srv end_year end_month fuel st = some o → ∃ bodies, o.result = .ok bodies := by
  intro fuel
  induction fuel with
  | zero =>
    intro st o h
    by_cases hc : rangeCond end_year end_month st
    · rw [rangeLoop_zero srv end_year end_month st hc] at h
      cases h
    · rw [rangeLoop_done srv end_year end_month 0 st hc] at h
      cases h
      exact ⟨_, rfl⟩
  | succ f ih =>
    intro st o h
    by_cases hc : rangeCond end_year end_month st
    · cases hf : FetchHistoricalCSV srv st.log st.current_year st.current_month with
      | mk r log1 =>
        cases r with
        | ok body =>
          rw [rangeLoop_ok srv end_year end_month f st hc body log1 hf] at h
          exact ih _ o h
        | error e =>
          rw [rangeLoop_caught srv end_year end_month f st hc e log1 hf] at h
          exact ih _ o h
    · rw [rangeLoop_done srv end_year end_month (f + 1) st hc] at h
      cases h
      exact ⟨_, rfl⟩

/-- With the end at month 12 of year 2147483647 the loop condition holds in every state
whose month is between 1 and 12, and such a state is followed by another one: the loop
does not end, whatever the fuel. -/
theorem rangeLoop_overflow_none (srv : Server) :
    ∀ (fuel : Nat) (st : RangeState), 1 ≤ st.current_month → st.current_month ≤ 12 →
      isInt32 st.current_year → rangeLoop srv 2147483647 12 fuel st = none := by
  intro fuel
  induction fuel with
  | zero =>
    intro st h1 h12 hy
    apply rangeLoop_zero
    unfold isInt32 at hy
    unfold rangeCond
    omega
  | succ f ih =>
    intro st h1 h12 hy
    have hc : rangeCond 2147483647 12 st := by
      unfold isInt32 at hy
      unfold rangeCond
      omega
    have hadv : ∀ st1 : RangeState, st1.current_month = st.current_month →
        st1.current_year = st.current_year →
        1 ≤ (advanceMonth st1).current_month ∧ (advanceMonth st1).current_month ≤ 12 ∧
          isInt32 (advanceMonth st1).current_year := by
      intro st1 hm hyr
      have hw : wrapInt32 (st1.current_month + 1) = st1.current_month + 1 :=
        wrapInt32_of_isInt32 _ (by unfold isInt32; omega)
      unfold advanceMonth
      simp only [hw]
      by_cases h : st1.current_month + 1 > 12
      · rw [if_pos h]
        exact ⟨le_refl _, by norm_num, isInt32_wrapInt32 _⟩
      · rw [if_neg h]
        simp only
        rw [show st1.current_year = st.current_year from hyr]
        exact ⟨by omega, by omega, hy⟩
    cases hf : FetchHistoricalCSV srv st.log st.current_year st.current_month with
    | mk r log1 =>
      cases r with
      | ok body =>
        rw [rangeLoop_ok srv 2147483647 12 f st hc body log1 hf]
        obtain ⟨a, b, c⟩ := hadv ⟨log1, st.calls ++ [(st.current_year, st.current_month)],
          st.results ++ [body], st.current_year, st.current_month⟩ rfl rfl
        exact ih _ a b c
      | error e =>
        rw [rangeLoop_caught srv 2147483647 12 f st hc e log1 hf]
        obtain ⟨a, b, c⟩ := hadv ⟨log1, st.calls ++ [(st.current_year, st.current_month)],
          st.results, st.current_year, st.current_month⟩ rfl rfl
        exact ih _ a b c

theorem monthSeq_between (start_year start_month end_year end_month : Int)
    (hs1 : 1 ≤ start_month) (hs12 : start_month ≤ 12) (he1 : 1 ≤ end_month)
    (he12 : end_month ≤ 12) (x : Int × Int) :
    x ∈ monthSeq (monthCount start_year start_month end_year end_month)
        (start_year, start_month) ↔
      1 ≤ x.2 ∧ x.2 ≤ 12 ∧ monthLe (start_year, start_month) x ∧
        monthLe x (end_year, end_month) := by
  rw [monthSeq_mem _ (start_year, start_month) hs1 hs12 x]
  unfold monthCount monthLe
  simp only
  omega

/-- C5 (amended): a run of `FetchHistoricalCSVRange` that ends never ends with an
exception; and for months from 1 to 12 on both ends, years in the range of `int` and an end
other than month 12 of year 2147483647, the run ends, having called `FetchHistoricalCSV`
once for each month from the start to the end inclusive, in chronological order, and
returns the bodies of the calls that succeeded, in that order, failed months absent. -/
theorem FetchHistoricalCSVRange_chronological (srv : Server) (log : List Request)
    (start_year start_month end_year end_month : Int) :
    (∀ fuel o, FetchHistoricalCSVRange srv fuel log start_year start_month end_year end_month
        = some o → ∃ bodies, o.result = .ok bodies) ∧
    (1 ≤ start_month → start_month ≤ 12 → 1 ≤ end_month → end_month ≤ 12 →
      isInt32 start_year → isInt32 end_year → (end_year < 2147483647 ∨ end_month < 12) →
      (∀ fuel, monthCount start_year start_month end_year end_month ≤ fuel →
        FetchHistoricalCSVRange srv fuel log start_year start_month end_year end_month =
          some ⟨.ok (okBodies (fetchEach srv log
              (monthSeq (monthCount start_year start_month end_year end_month)
                (start_year, start_month))).1),
            (fetchEach srv log
              (monthSeq (monthCount start_year start_month end_year end_month)
                (start_year, start_month))).2,
            monthSeq (monthCount start_year start_month end_year end_month)
              (start_year, start_month)⟩) ∧
      (∀ x : Int × Int,
        x ∈ monthSeq (monthCount start_year start_month end_year end_month)
            (start_year, start_month) ↔
          1 ≤ x.2 ∧ x.2 ≤ 12 ∧ monthLe (start_year, start_month) x ∧
            monthLe x (end_year, end_month)) ∧
      (monthSeq (monthCount start_year start_month end_year end_month)
        (start_year, start_month)).Pairwise monthLt) := by
  refine ⟨fun fuel o h => rangeLoop_no_exception srv end_year end_month fuel _ o h, ?_⟩
  intro hs1 hs12 he1 he12 hsy hey hno
  refine ⟨?_, fun x => monthSeq_between _ _ _ _ hs1 hs12 he1 he12 x,
    monthSeq_pairwise _ _ hs1 hs12⟩
  intro fuel hfuel
  have h := rangeLoop_months srv end_year end_month he1 he12 hey hno
    (monthCount start_year start_month end_year end_month)
    ⟨log, [], [], start_year, start_month⟩ hs1 hs12 hsy rfl fuel hfuel
  simpa [FetchHistoricalCSVRange] using h

/-- C5 at `FetchRange(2023, 11, 2024, 2)` on an archive that has no file for 2023-12 under
either pattern: four months are attempted in order and three bodies are returned. -/
theorem FetchHistoricalCSVRange_chronological_witness :
    (((1 : Int) ≤ 11 ∧ (11 : Int) ≤ 12 ∧ (1 : Int) ≤ 2 ∧ (2 : Int) ≤ 12) ∧
      isInt32 2023 ∧ isInt32 2024 ∧ ((2024 : Int) < 2147483647 ∨ (2 : Int) < 12)) ∧
    (FetchHistoricalCSVRange (archiveServer ["/wp-content/uploads/2023/11/2023-10.csv",
        "/wp-content/uploads/2024/01/2024-01.csv", "/wp-content/uploads/2024/02/2024-01.csv"])
        4 [] 2023 11 2024 2).map (fun o => (o.result, o.calls)) =
      some (.ok ["/wp-content/uploads/2023/11/2023-10.csv",
          "/wp-content/uploads/2024/01/2024-01.csv", "/wp-content/uploads/2024/02/2024-01.csv"],
        [(2023, 11), (2023, 12), (2024, 1), (2024, 2)]) := by
  refine ⟨by decide, ?_⟩
  have h := ((FetchHistoricalCSVRange_chronological
    (archiveServer ["/wp-content/uploads/2023/11/2023-10.csv",
      "/wp-content/uploads/2024/01/2024-01.csv", "/wp-content/uploads/2024/02/2024-01.csv"])
    [] 2023 11 2024 2).2 (by decide) (by decide) (by decide) (by decide) (by decide)
    (by decide) (by decide)).1 4 (by decide)
  rw [h]
  decide

/-- C5 as stated fails at the range from 2147483647-12 to 2147483647-12, whose months are
in 1..12: after the one call the year counter is incremented past the largest `int`, wraps
to the smallest one, and the loop never ends, so nothing is returned. -/
theorem FetchHistoricalCSVRange_year_overflow :
    ¬ ∃ fuel o, FetchHistoricalCSVRange (archiveServer []) fuel [] 2147483647 12 2147483647 12
      = some o := by
  rintro ⟨fuel, o, h⟩
  have hnone := rangeLoop_overflow_none (archiveServer []) fuel
    ⟨[], [], [], 2147483647, 12⟩ (by decide) (by decide) (by decide)
  unfold FetchHistoricalCSVRange at h
  rw [hnone] at h
  cases h

/-- The request log after one `FetchHistoricalCSV` call per listed month is the log
before, followed by the requests of one attempt at each month, in order. -/
theorem fetchEach_attempts (srv : Server) :
    ∀ (months : List (Int × Int)) (log : List Request),
      ∃ attempts : List (List Request),
        List.Forall₂ isMonthAttempt months attempts ∧
        (fetchEach srv log months).2 = log ++ attempts.flatten := by
  intro months
  induction months with
  | nil =>
    intro log
    exact ⟨[], List.Forall₂.nil, by simp [fetchEach]⟩
  | cons ym rest ih =>
    intro log
    obtain ⟨attempts, hall, hlog⟩ := ih (FetchHistoricalCSV srv log ym.1 ym.2).2
    rcases FetchHistoricalCSV_log srv log ym.1 ym.2 with h | h
    · refine ⟨[primaryRequest ym.1 ym.2] :: attempts,
        List.Forall₂.cons (Or.inl rfl) hall, ?_⟩
      rw [h] at hlog
      simp only [fetchEach, h, hlog, List.flatten_cons, List.append_assoc]
    · refine ⟨[primaryRequest ym.1 ym.2, altRequest ym.1 ym.2] :: attempts,
        List.Forall₂.cons (Or.inr rfl) hall, ?_⟩
      rw [h] at hlog
      simp only [fetchEach, h, hlog, List.flatten_cons, List.append_assoc]

/-- With months from 1 to 12 on both ends and no overflow of the year counter, the loop of
`FetchHistoricalCSVRange` does not end in fewer than `monthCount` iterations. -/
theorem rangeLoop_short (srv : Server) (end_year end_month : Int)
    (he1 : 1 ≤ end_month) (he12 : end_month ≤ 12) (hey : isInt32 end_year)
    (hno : end_year < 2147483647 ∨ end_month < 12) :
    ∀ (n : Nat) (st : RangeState), 1 ≤ st.current_month → st.current_month ≤ 12 →
      isInt32 st.current_year →
      monthCount st.current_year st.current_month end_year end_month = n →
      ∀ fuel, fuel < n → rangeLoop srv end_year end_month fuel st = none := by
  intro n
  induction n with
  | zero =>
    intro st _ _ _ _ fuel hfuel
    omega
  | succ k ih =>
    intro st h1 h12 hy hn fuel hfuel
    have hc : rangeCond end_year end_month st := by
      unfold monthCount at hn
      unfold rangeCond
      omega
    cases fuel with
    | zero => exact rangeLoop_zero srv end_year end_month st hc
    | succ f =>
      unfold isInt32 at hy hey
      have hnext := nextMonth_range (st.current_year, st.current_month) h1 h12
      have hy1 : st.current_month = 12 → isInt32 (st.current_year + 1) := by
        intro h
        unfold rangeCond at hc
        unfold isInt32
        omega
      have hynext : isInt32 (nextMonth (st.current_year, st.current_month)).1 := by
        unfold nextMonth
        by_cases h : st.current_month = 12
        · simp only [h, if_true]
          exact hy1 h
        · simp only [h, if_false]
          exact hy
      have hcount : monthCount (nextMonth (st.current_year, st.current_month)).1
          (nextMonth (st.current_year, st.current_month)).2 end_year end_month = k := by
        unfold monthCount at hn ⊢
        simp only at hnext
        omega
      cases hf : FetchHistoricalCSV srv st.log st.current_year st.current_month with
      | mk r log1 =>
        cases r with
        | ok body =>
          rw [rangeLoop_ok srv end_year end_month f st hc body log1 hf,
            advanceMonth_eq_nextMonth ⟨log1, st.calls ++ [(st.current_year, st.current_month)],
              st.results ++ [body], st.current_year, st.current_month⟩ h1 h12 hy1]
          exact ih ⟨log1, st.calls ++ [(st.current_year, st.current_month)],
            st.results ++ [body],
            (nextMonth (st.current_year, st.current_month)).1,
            (nextMonth (st.current_year, st.current_month)).2⟩
            hnext.1 hnext.2.1 hynext hcount f (by omega)
        | error e =>
          rw [rangeLoop_caught srv end_year end_month f st hc e log1 hf,
            advanceMonth_eq_nextMonth ⟨log1, st.calls ++ [(st.current_year, st.current_month)],
              st.results, st.current_year, st.current_month⟩ h1 h12 hy1]
          exact ih ⟨log1, st.calls ++ [(st.current_year, st.current_month)], st.results,
            (nextMonth (st.current_year, st.current_month)).1,
            (nextMonth (st.current_year, st.current_month)).2⟩
            hnext.1 hnext.2.1 hynext hcount f (by omega)

/-- C10: for months from 1 to 12 on both ends and years that keep the year counter in the
range of `int`, the loop of `FetchHistoricalCSVRange` ends after exactly
`N = max(0, 12*(end_year - start_year) + (end_month - start_month) + 1)` iterations: it
returns for every fuel of at least `N` and for none below. It attempts exactly `N` months:
the requests it adds to the log are those of one attempt (the primary request, alone or
followed by the fallback request) at each of the `N` consecutive months from the start, in
order, and what it returns are the bodies of the `FetchHistoricalCSV` calls that succeeded.
When the start is chronologically after the end it makes no request and returns the empty
sequence. -/
theorem FetchHistoricalCSVRange_terminates (srv : Server) (log : List Request)
    (start_year start_month end_year end_month : Int)
    (hs1 : 1 ≤ start_month) (hs12 : start_month ≤ 12)
    (he1 : 1 ≤ end_month) (he12 : end_month ≤ 12)
    (hsy : isInt32 start_year) (hey : isInt32 end_year)
    (hno : end_year < 2147483647 ∨ end_month < 12) :
    ∃ o : RangeOutcome,
      (∀ fuel, monthCount start_year start_month end_year end_month ≤ fuel →
        FetchHistoricalCSVRange srv fuel log start_year start_month end_year end_month
          = some o) ∧
      (∀ fuel, fuel < monthCount start_year start_month end_year end_month →
        FetchHistoricalCSVRange srv fuel log start_year start_month end_year end_month
          = none) ∧
      (monthCount start_year start_month end_year end_month : Int) =
        max 0 (12 * (end_year - start_year) + (end_month - start_month) + 1) ∧
      (∃ attempts : List (List Request),
        attempts.length = monthCount start_year start_month end_year end_month ∧
        List.Forall₂ isMonthAttempt
          (monthSeq (monthCount start_year start_month end_year end_month)
            (start_year, start_month)) attempts ∧
        o.log = log ++ attempts.flatten) ∧
      o.log = (fetchEach srv log
        (monthSeq (monthCount start_year start_month end_year end_month)
          (start_year, start_month))).2 ∧
      o.result = .ok (okBodies (fetchEach srv log
        (monthSeq (monthCount start_year start_month end_year end_month)
          (start_year, start_month))).1) ∧
      o.calls = monthSeq (monthCount start_year start_month end_year end_month)
        (start_year, start_month) ∧
      (o.calls.length : Int) =
        max 0 (12 * (end_year - start_year) + (end_month - start_month) + 1) ∧
      (monthLt (end_year, end_month) (start_year, start_month) →
        o = ⟨.ok [], log, []⟩) := by
  have h := rangeLoop_months srv end_year end_month he1 he12 hey hno
    (monthCount start_year start_month end_year end_month)
    ⟨log, [], [], start_year, start_month⟩ hs1 hs12 hsy rfl
  have hshort := rangeLoop_short srv end_year end_month he1 he12 hey hno
    (monthCount start_year start_month end_year end_month)
    ⟨log, [], [], start_year, start_month⟩ hs1 hs12 hsy rfl
  have hmax : (monthCount start_year start_month end_year end_month : Int) =
      max 0 (12 * (end_year - start_year) + (end_month - start_month) + 1) := by
    unfold monthCount
    omega
  obtain ⟨attempts, hall, hlog⟩ := fetchEach_attempts srv
    (monthSeq (monthCount start_year start_month end_year end_month)
      (start_year, start_month)) log
  refine ⟨_, fun fuel hfuel => h fuel hfuel, fun fuel hfuel => hshort fuel hfuel, hmax,
    ⟨attempts, ?_, hall, hlog⟩, rfl, ?_, ?_, ?_, ?_⟩
  · rw [← List.Forall₂.length_eq hall, monthSeq_length]
  · simp only [List.nil_append]
  · simp only [List.nil_append]
  · simp only [List.nil_append, monthSeq_length]
    exact hmax
  · intro hlt
    have hzero : monthCount start_year start_month end_year end_month = 0 := by
      unfold monthLt at hlt
      unfold monthCount
      simp only at hlt
      omega
    simp [hzero, monthSeq, fetchEach, okBodies]

/-- C10 at the range from 2023-01 to 2024-02 on an archive without any file: the loop ends
after 14 iterations and not after 13, and each of the 14 months is attempted with its
primary and its fallback request, 28 requests in all. -/
theorem FetchHistoricalCSVRange_terminates_witness :
    (((1 : Int) ≤ 1 ∧ (1 : Int) ≤ 12 ∧ (1 : Int) ≤ 2 ∧ (2 : Int) ≤ 12) ∧
      isInt32 2023 ∧ isInt32 2024 ∧ ((2024 : Int) < 2147483647 ∨ (2 : Int) < 12)) ∧
    (∃ o : RangeOutcome,
      FetchHistoricalCSVRange (archiveServer []) 14 [] 2023 1 2024 2 = some o ∧
      o.calls.length = 14) ∧
    (FetchHistoricalCSVRange (archiveServer []) 14 [] 2023 1 2024 2).map
      (fun o => (o.result, o.log.length, o.log.take 4)) =
      some (.ok [], 28,
        [⟨"https://ecobici.cdmx.gob.mx", "/wp-content/uploads/2023/01/2023-00.csv"⟩,
         ⟨"https://ecobici.cdmx.gob.mx", "/wp-content/uploads/2023/01/2023-01.csv"⟩,
         ⟨"https://ecobici.cdmx.gob.mx", "/wp-content/uploads/2023/02/2023-01.csv"⟩,
         ⟨"https://ecobici.cdmx.gob.mx", "/wp-content/uploads/2023/02/2023-02.csv"⟩]) ∧
    FetchHistoricalCSVRange (archiveServer []) 13 [] 2023 1 2024 2 = none := by
  refine ⟨by decide, ?_, by decide, ?_⟩
  · obtain ⟨o, hrun, -, -, -, -, -, -, hlen, -⟩ := FetchHistoricalCSVRange_terminates
      (archiveServer []) [] 2023 1 2024 2 (by decide) (by decide) (by decide) (by decide)
      (by decide) (by decide) (by decide)
    refine ⟨o, hrun 14 (by decide), ?_⟩
    have h14 : max (0 : Int) (12 * (2024 - 2023) + (2 - 1) + 1) = 14 := by decide
    rw [h14] at hlen
    exact_mod_cast hlen
  · obtain ⟨o, -, hshort, -⟩ := FetchHistoricalCSVRange_terminates
      (archiveServer []) [] 2023 1 2024 2 (by decide) (by decide) (by decide) (by decide)
      (by decide) (by decide) (by decide)
    exact hshort 13 (by decide)

/-! ## Theorems: the batch cursor -/

theorem copyRow_fold {F : Type} (row : List (Value F)) (count : Nat) :
    ∀ (cols : List Nat) (out : DataChunk F),
      (cols.foldl (fun o col => o.SetValue col count (row.getD col .NULL)) out).column_count
          = out.column_count ∧
      (cols.foldl (fun o col => o.SetValue col count (row.getD col .NULL)) out).cardinality
          = out.cardinality ∧
      ∀ c r, (cols.foldl (fun o col => o.SetValue col count (row.getD col .NULL)) out).cells c r
          = if c ∈ cols ∧ r = count then row.getD c .NULL else out.cells c r := by
  intro cols
  induction cols with
  | nil => intro out; simp
  | cons a cs ih =>
    intro out
    obtain ⟨h1, h2, h3⟩ := ih (out.SetValue a count (row.getD a .NULL))
    simp only [List.foldl_cons]
    refine ⟨h1, h2, ?_⟩
    intro c r
    rw [h3 c r]
    simp only [DataChunk.SetValue, List.mem_cons]
    by_cases hr : r = count
    · by_cases hc : c ∈ cs
      · simp [hr, hc]
      · by_cases hca : c = a
        · simp [hr, hca]
        · simp [hr, hc, hca]
    · simp [hr]

theorem copyRow_spec {F : Type} (row : List (Value F)) (count : Nat) (out : DataChunk F) :
    (copyRow row count out).column_count = out.column_count ∧
    (copyRow row count out).cardinality = out.cardinality ∧
    ∀ c r, (copyRow row count out).cells c r
      = if c < out.column_count ∧ r = count then row.getD c .NULL else out.cells c r := by
  obtain ⟨h1, h2, h3⟩ := copyRow_fold row count (List.range out.column_count) out
  refine ⟨h1, h2, ?_⟩
  intro c r
  rw [copyRow, h3 c r]
  simp only [List.mem_range]

theorem pullLoop_spec {F : Type} (vector_size : Nat) :
    ∀ (n : Nat) (data : EcobiciStationStatusBindData F) (output : DataChunk F) (count : Nat),
      vector_size - count = n →
      (pullLoop vector_size data output count).1.rows = data.rows ∧
      (pullLoop vector_size data output count).1.offset =
        data.offset + min (vector_size - count) (data.rows.length - data.offset) ∧
      (pullLoop vector_size data output count).2.2 =
        count + min (vector_size - count) (data.rows.length - data.offset) ∧
      (pullLoop vector_size data output count).2.1.column_count = output.column_count ∧
      ∀ c r, (pullLoop vector_size data output count).2.1.cells c r =
        if c < output.column_count ∧ count ≤ r ∧
            r < count + min (vector_size - count) (data.rows.length - data.offset)
        then (data.rows.getD (data.offset + (r - count)) []).getD c .NULL
        else output.cells c r := by
  intro n
  induction n with
  | zero =>
    intro data output count hn
    rw [pullLoop]
    have hc : ¬ (data.offset < data.rows.length ∧ count < vector_size) := by omega
    rw [if_neg hc]
    have hmin : min (vector_size - count) (data.rows.length - data.offset) = 0 := by omega
    simp only [hmin, Nat.add_zero, true_and]
    intro c r
    have : ¬ (c < output.column_count ∧ count ≤ r ∧ r < count) := by omega
    rw [if_neg this]
  | succ k ih =>
    intro data output count hn
    rw [pullLoop]
    by_cases hc : data.offset < data.rows.length ∧ count < vector_size
    · rw [if_pos hc]
      obtain ⟨c1, c2, c3⟩ := copyRow_spec (data.rows.getD data.offset []) count output
      obtain ⟨h1, h2, h3, h4, h5⟩ := ih { data with offset := data.offset + 1 }
        (copyRow (data.rows.getD data.offset []) count output) (count + 1) (by omega)
      simp only at h1 h2 h3 h4 h5
      have hmin : min (vector_size - (count + 1)) (data.rows.length - (data.offset + 1)) + 1
          = min (vector_size - count) (data.rows.length - data.offset) := by omega
      refine ⟨h1, by rw [h2]; omega, by rw [h3]; omega, by rw [h4, c1], ?_⟩
      intro c r
      rw [h5 c r, c1, c3 c r]
      by_cases hcol : c < output.column_count
      · by_cases hr : r = count
        · subst hr
          have a1 : ¬ (c < output.column_count ∧ r + 1 ≤ r ∧
              r < r + 1 + min (vector_size - (r + 1))
                (data.rows.length - (data.offset + 1))) := by omega
          have a2 : c < output.column_count ∧ r ≤ r ∧
              r < r + min (vector_size - r) (data.rows.length - data.offset) := by omega
          rw [if_neg a1, if_pos ⟨hcol, rfl⟩, if_pos a2]
          simp
        · by_cases hin : count + 1 ≤ r ∧ r < count + 1 +
              min (vector_size - (count + 1)) (data.rows.length - (data.offset + 1))
          · have a2 : c < output.column_count ∧ count ≤ r ∧
                r < count + min (vector_size - count) (data.rows.length - data.offset) := by
              omega
            rw [if_pos ⟨hcol, hin⟩, if_pos a2]
            have : data.offset + 1 + (r - (count + 1)) = data.offset + (r - count) := by omega
            rw [this]
          · have a1 : ¬ (c < output.column_count ∧ count + 1 ≤ r ∧ r < count + 1 +
                min (vector_size - (count + 1)) (data.rows.length - (data.offset + 1))) :=
              fun h => hin h.2
            have a2 : ¬ (c < output.column_count ∧ count ≤ r ∧
                r < count + min (vector_size - count) (data.rows.length - data.offset)) := by
              omega
            have a3 : ¬ (c < output.column_count ∧ r = count) := fun h => hr h.2
            rw [if_neg a1, if_neg a3, if_neg a2]
      · have a1 : ¬ (c < output.column_count ∧ count + 1 ≤ r ∧ r < count + 1 +
            min (vector_size - (count + 1)) (data.rows.length - (data.offset + 1))) :=
          fun h => hcol h.1
        have a2 : ¬ (c < output.column_count ∧ count ≤ r ∧
            r < count + min (vector_size - count) (data.rows.length - data.offset)) :=
          fun h => hcol h.1
        have a3 : ¬ (c < output.column_count ∧ r = count) := fun h => hcol h.1
        rw [if_neg a1, if_neg a3, if_neg a2]
    · rw [if_neg hc]
      have hmin : min (vector_size - count) (data.rows.length - data.offset) = 0 := by omega
      simp only [hmin, Nat.add_zero, true_and]
      intro c r
      have : ¬ (c < output.column_count ∧ count ≤ r ∧ r < count) := by omega
      rw [if_neg this]


theorem pullOf_eq {F : Type} (kind : FeedKind) (vector_size : Nat)
    (data : EcobiciStationStatusBindData F) (output : DataChunk F) :
    pullOf kind vector_size data output =
      ((pullLoop vector_size data output 0).1,
        (pullLoop vector_size data output 0).2.1.SetCardinality
          (pullLoop vector_size data output 0).2.2) := by
  cases kind <;> rfl

theorem range_map_getD {F : Type} (row : List (Value F)) (n : Nat) (h : row.length = n) :
    (List.range n).map (fun c => row.getD c .NULL) = row := by
  apply List.ext_getElem
  · simp [h]
  · intro i h1 h2
    simp [List.getElem?_eq_getElem h2]

theorem range_map_rows {α : Type} (rows : List α) (d : α) (offset k : Nat)
    (hk : offset + k ≤ rows.length) :
    (List.range k).map (fun r => rows.getD (offset + r) d) = (rows.drop offset).take k := by
  apply List.ext_getElem
  · simp
    omega
  · intro i h1 h2
    simp at h1
    simp [List.getElem_take, List.getElem_drop]
    rw [List.getElem?_eq_getElem (by omega)]
    simp

/-- One call of a pull function, for any bind data and any chunk. -/
theorem pullOf_spec {F : Type} (kind : FeedKind) (vector_size : Nat)
    (data : EcobiciStationStatusBindData F) (output : DataChunk F) :
    (pullOf kind vector_size data output).1.rows = data.rows ∧
    (pullOf kind vector_size data output).1.offset =
      data.offset + min vector_size (data.rows.length - data.offset) ∧
    (pullOf kind vector_size data output).2.cardinality =
      min vector_size (data.rows.length - data.offset) ∧
    (pullOf kind vector_size data output).2.column_count = output.column_count ∧
    ((∀ row ∈ data.rows, row.length = output.column_count) →
      (pullOf kind vector_size data output).2.rowList =
        (data.rows.drop data.offset).take
          (min vector_size (data.rows.length - data.offset))) := by
  obtain ⟨h1, h2, h3, h4, h5⟩ := pullLoop_spec vector_size vector_size data output 0 rfl
  rw [pullOf_eq]
  simp only [Nat.sub_zero, Nat.zero_add, Nat.zero_le, true_and] at h2 h3 h5
  refine ⟨h1, h2, h3, h4, ?_⟩
  intro harity
  simp only [DataChunk.rowList, DataChunk.SetCardinality, h3, h4]
  by_cases hoff : data.offset ≤ data.rows.length
  · rw [← range_map_rows data.rows [] data.offset _ (by omega)]
    apply List.map_congr_left
    intro r hr
    rw [List.mem_range] at hr
    have hrow : (data.rows.getD (data.offset + r) []).length = output.column_count := by
      apply harity
      rw [List.getD_eq_getElem?_getD, List.getElem?_eq_getElem (by omega)]
      exact List.getElem_mem _
    rw [← range_map_getD (data.rows.getD (data.offset + r) []) output.column_count hrow]
    apply List.map_congr_left
    intro c hc
    rw [List.mem_range] at hc
    rw [h5 c r, if_pos ⟨hc, hr⟩]
  · have hz : min vector_size (data.rows.length - data.offset) = 0 := by omega
    simp [hz]


theorem pullTrace_invariant {F : Type} (kind : FeedKind) (rows : List (List (Value F))) :
    ∀ (sizes : List Nat) (offset : Nat) (output : DataChunk F), offset ≤ rows.length →
      (∀ d ∈ pullTrace kind sizes ⟨rows, offset⟩ output,
        d.rows = rows ∧ d.offset ≤ rows.length) ∧
      List.Chain (fun a b => a.offset ≤ b.offset) ⟨rows, offset⟩
        (pullTrace kind sizes ⟨rows, offset⟩ output) := by
  intro sizes
  induction sizes with
  | nil =>
    intro offset output _
    simp [pullTrace]
  | cons b rest ih =>
    intro offset output hoff
    obtain ⟨h1, h2, -, -, -⟩ := pullOf_spec kind b ⟨rows, offset⟩ output
    simp only at h1 h2
    have hd : (pullOf kind b ⟨rows, offset⟩ output).1 =
        ⟨rows, offset + min b (rows.length - offset)⟩ := by
      cases hp : (pullOf kind b ⟨rows, offset⟩ output).1 with
      | mk r o =>
        rw [hp] at h1 h2
        simp only at h1 h2
        rw [h1, h2]
    obtain ⟨i1, i2⟩ := ih (offset + min b (rows.length - offset))
      (pullOf kind b ⟨rows, offset⟩ output).2 (by omega)
    simp only [pullTrace, hd, List.mem_cons, List.chain_cons]
    refine ⟨?_, ?_, i2⟩
    · rintro d (rfl | hmem)
      · exact ⟨rfl, by simp only; omega⟩
      · exact i1 d hmem
    · omega

theorem drain_spec {F : Type} (kind : FeedKind) (vector_size : Nat) (hB : 1 ≤ vector_size)
    (rows : List (List (Value F))) :
    ∀ (n offset : Nat) (output : DataChunk F) (batches : List (List (List (Value F)))),
      rows.length - offset = n → offset ≤ rows.length →
      (∀ row ∈ rows, row.length = output.column_count) →
      ∃ more, more.flatten = rows.drop offset ∧
        ∀ fuel, n + 1 ≤ fuel →
          drain (pullOf kind vector_size) fuel ⟨rows, offset⟩ output batches =
            some (batches ++ more, ⟨rows, rows.length⟩) := by
  intro n
  induction n using Nat.strong_induction_on with
  | _ n ih =>
    intro offset output batches hn hoff harity
    obtain ⟨h1, h2, h3, h4, h5⟩ := pullOf_spec kind vector_size ⟨rows, offset⟩ output
    simp only at h1 h2 h3 h4 h5
    have hd : (pullOf kind vector_size ⟨rows, offset⟩ output).1 =
        ⟨rows, offset + min vector_size (rows.length - offset)⟩ := by
      cases hp : (pullOf kind vector_size ⟨rows, offset⟩ output).1 with
      | mk r o =>
        rw [hp] at h1 h2
        simp only at h1 h2
        rw [h1, h2]
    by_cases hend : offset = rows.length
    · refine ⟨[], ?_, ?_⟩
      · simp [hend]
      · intro fuel hfuel
        obtain ⟨f, rfl⟩ : ∃ f, fuel = f + 1 := ⟨fuel - 1, by omega⟩
        have hz : (pullOf kind vector_size ⟨rows, offset⟩ output).2.cardinality = 0 := by
          rw [h3]; omega
        simp only [drain, hz, if_true, hd, List.append_nil]
        have : offset + min vector_size (rows.length - offset) = rows.length := by omega
        rw [this]
    · have hk : 1 ≤ min vector_size (rows.length - offset) := by omega
      obtain ⟨more, hm1, hm2⟩ := ih (rows.length - (offset + min vector_size (rows.length - offset)))
        (by omega) (offset + min vector_size (rows.length - offset))
        (pullOf kind vector_size ⟨rows, offset⟩ output).2
        (batches ++ [(pullOf kind vector_size ⟨rows, offset⟩ output).2.rowList]) rfl
        (by omega) (by rw [h4]; exact harity)
      refine ⟨(pullOf kind vector_size ⟨rows, offset⟩ output).2.rowList :: more, ?_, ?_⟩
      · rw [List.flatten_cons, hm1, h5 harity]
        rw [← List.drop_drop, List.take_append_drop]
      · intro fuel hfuel
        obtain ⟨f, rfl⟩ : ∃ f, fuel = f + 1 := ⟨fuel - 1, by omega⟩
        have hnz : ¬ (pullOf kind vector_size ⟨rows, offset⟩ output).2.cardinality = 0 := by
          rw [h3]; omega
        simp only [drain, hnz, if_false, hd]
        rw [hm2 f (by omega)]
        simp

/-- C9: for every cursor state with `offset ≤ len(rows)` and every batch size, one call of a
pull function puts exactly `min(B, len - offset)` rows in the chunk, the rows at positions
`offset, offset + 1, ...` of the buffer, adds that count to the offset and leaves the
buffer as it was; so after any sequence of pulls from a fresh cursor the offset is at most
the buffer length, and it never decreases. Rows carry one cell per column of the chunk. -/
theorem pull_batch_cursor {F : Type} (kind : FeedKind) (rows : List (List (Value F)))
    (offset vector_size : Nat) (output : DataChunk F) (hoff : offset ≤ rows.length)
    (harity : ∀ row ∈ rows, row.length = output.column_count) :
    (pullOf kind vector_size ⟨rows, offset⟩ output).2.cardinality =
      min vector_size (rows.length - offset) ∧
    (pullOf kind vector_size ⟨rows, offset⟩ output).2.rowList =
      (rows.drop offset).take (min vector_size (rows.length - offset)) ∧
    (pullOf kind vector_size ⟨rows, offset⟩ output).1.offset =
      offset + min vector_size (rows.length - offset) ∧
    (pullOf kind vector_size ⟨rows, offset⟩ output).1.rows = rows ∧
    (pullOf kind vector_size ⟨rows, offset⟩ output).1.offset ≤ rows.length ∧
    (∀ sizes : List Nat,
      (∀ d ∈ pullTrace kind sizes ⟨rows, 0⟩ output, d.rows = rows ∧ d.offset ≤ rows.length) ∧
      List.Chain (fun a b => a.offset ≤ b.offset) ⟨rows, 0⟩
        (pullTrace kind sizes ⟨rows, 0⟩ output)) := by
  obtain ⟨h1, h2, h3, -, h5⟩ := pullOf_spec kind vector_size ⟨rows, offset⟩ output
  simp only at h1 h2 h3 h5
  refine ⟨h3, h5 harity, h2, h1, by rw [h2]; omega, ?_⟩
  intro sizes
  exact pullTrace_invariant kind rows sizes 0 output (Nat.zero_le _)

/-- C9 on a buffer of three rows at offset 1 with batch size 5: the pull returns the last
two rows and moves the offset to 3. -/
theorem pull_batch_cursor_witness :
    (1 ≤ ([[.INTEGER 1, .BOOLEAN true], [.INTEGER 2, .BOOLEAN false],
        [.INTEGER 3, .BOOLEAN true]] : List (List (Value Unit))).length ∧
      ∀ row ∈ ([[.INTEGER 1, .BOOLEAN true], [.INTEGER 2, .BOOLEAN false],
        [.INTEGER 3, .BOOLEAN true]] : List (List (Value Unit))), row.length = 2) ∧
    (pullOf .station_status 5 ⟨[[.INTEGER 1, .BOOLEAN true], [.INTEGER 2, .BOOLEAN false],
        [.INTEGER 3, .BOOLEAN true]], 1⟩ ⟨2, fun _ _ => (.NULL : Value Unit), 0⟩).2.rowList =
      [[.INTEGER 2, .BOOLEAN false], [.INTEGER 3, .BOOLEAN true]] ∧
    (pullOf .station_status 5 ⟨[[.INTEGER 1, .BOOLEAN true], [.INTEGER 2, .BOOLEAN false],
        [.INTEGER 3, .BOOLEAN true]], 1⟩ ⟨2, fun _ _ => (.NULL : Value Unit), 0⟩).1.offset
      = 3 := by
  have h := pull_batch_cursor .station_status
    ([[.INTEGER 1, .BOOLEAN true], [.INTEGER 2, .BOOLEAN false],
      [.INTEGER 3, .BOOLEAN true]] : List (List (Value Unit))) 1 5
    ⟨2, fun _ _ => (.NULL : Value Unit), 0⟩ (by decide) (by decide)
  exact ⟨⟨by decide, by decide⟩, h.2.1.trans (by decide), h.2.2.1.trans (by decide)⟩

/-! ## Theorems: the bind functions -/

theorem contains_false_of_no_key {F : Type} (parsed : Json F) (key : String)
    (h : ∀ members, parsed = .object members → members.lookup key = none) :
    parsed.contains key = false := by
  cases parsed with
  | object members => simp [Json.contains, h members rfl]
  | _ => rfl

theorem bindWith_ok {F : Type} (names : List String) (return_types : List LogicalType)
    (feed_name : String) (rowsOf : Json F → Except Exception (List (List (Value F))))
    (parse : String → Except Exception (Json F)) (srv : Server) (log : List Request)
    (json_data : String) (parsed : Json F) (rows : List (List (Value F)))
    (hfetch : (FetchGBFSFeed srv log feed_name).1 = .ok json_data)
    (hparse : parse json_data = .ok parsed) (hrows : rowsOf parsed = .ok rows) :
    (bindWith names return_types feed_name rowsOf parse srv log).1 =
      .ok ⟨names, return_types, ⟨rows, 0⟩⟩ := by
  unfold bindWith
  cases hf : FetchGBFSFeed srv log feed_name with
  | mk r log1 =>
    rw [hf] at hfetch
    simp only at hfetch
    subst hfetch
    simp only [hparse, hrows]

theorem bindWith_rows {F : Type} (names : List String) (return_types : List LogicalType)
    (feed_name : String) (rowsOf : Json F → Except Exception (List (List (Value F))))
    (parse : String → Except Exception (Json F)) (srv : Server) (log : List Request)
    (json_data : String) (parsed : Json F) (b : BindResult F)
    (hfetch : (FetchGBFSFeed srv log feed_name).1 = .ok json_data)
    (hparse : parse json_data = .ok parsed)
    (hbind : (bindWith names return_types feed_name rowsOf parse srv log).1 = .ok b) :
    rowsOf parsed = .ok b.bind_data.rows := by
  unfold bindWith at hbind
  cases hf : FetchGBFSFeed srv log feed_name with
  | mk r log1 =>
    rw [hf] at hfetch hbind
    simp only at hfetch
    subst hfetch
    simp only [hparse] at hbind
    cases hr : rowsOf parsed with
    | error e =>
      rw [hr] at hbind
      cases hbind
    | ok rows =>
      rw [hr] at hbind
      simp only at hbind
      cases hbind
      rfl

theorem pushRows_spec {F : Type} (rowOf : Json F → Except Exception (List (Value F))) :
    ∀ (stations : List (Json F)) (acc rows : List (List (Value F))),
      pushRows rowOf stations acc = .ok rows →
      ∀ (i : Nat) (station : Json F), stations[i]? = some station →
        ∃ row, rowOf station = .ok row ∧ rows[acc.length + i]? = some row := by
  intro stations
  induction stations with
  | nil =>
    intro acc rows _ i station hi
    simp at hi
  | cons s rest ih =>
    intro acc rows h i station hi
    rw [pushRows] at h
    cases hs : rowOf s with
    | error e =>
      rw [hs] at h
      cases h
    | ok row =>
      rw [hs] at h
      simp only at h
      cases i with
      | zero =>
        simp only [List.getElem?_cons_zero, Option.some.injEq] at hi
        subst hi
        refine ⟨row, hs, ?_⟩
        have hpre : ∀ (xs : List (Json F)) (acc1 rows1 : List (List (Value F))),
            pushRows rowOf xs acc1 = .ok rows1 → ∀ j, j < acc1.length → rows1[j]? = acc1[j]? := by
          intro xs
          induction xs with
          | nil =>
            intro acc1 rows1 h1 j _
            rw [pushRows] at h1
            cases h1
            rfl
          | cons x xs ihx =>
            intro acc1 rows1 h1 j hj
            rw [pushRows] at h1
            cases hx : rowOf x with
            | error e =>
              rw [hx] at h1
              cases h1
            | ok r =>
              rw [hx] at h1
              simp only at h1
              rw [ihx _ _ h1 j (by simp; omega)]
              exact List.getElem?_append_left hj
        rw [Nat.add_zero, hpre rest (acc ++ [row]) rows h acc.length (by simp)]
        simp
      | succ j =>
        simp only [List.getElem?_cons_succ] at hi
        obtain ⟨r, hr1, hr2⟩ := ih (acc ++ [row]) rows h j station hi
        refine ⟨r, hr1, ?_⟩
        rw [← hr2]
        congr 1
        simp
        omega

theorem Except_bind_ok {ε α β : Type} (x : Except ε α) (f : α → Except ε β) (b : β)
    (h : x >>= f = .ok b) : ∃ a, x = .ok a ∧ f a = .ok b := by
  cases x with
  | error e => cases h
  | ok a => exact ⟨a, rfl, h⟩

theorem value_int_absent {F : Type} (ops : DoubleOps F) (members : List (String × Json F))
    (key : String) (default_value v : Int) (hk : members.lookup key = none)
    (h : (Json.object members).value_int ops key default_value = .ok v) :
    v = default_value := by
  simp only [Json.value_int, hk] at h
  exact (Except.ok.inj h).symm

theorem stationStatusRow_flags {F : Type} (ops : DoubleOps F)
    (members : List (String × Json F)) (row : List (Value F))
    (h : stationStatusRow ops (.object members) = .ok row) :
    (members.lookup "is_installed" = none → row[4]? = some (.BOOLEAN true)) ∧
    (members.lookup "is_renting" = none → row[5]? = some (.BOOLEAN true)) ∧
    (members.lookup "is_returning" = none → row[6]? = some (.BOOLEAN true)) := by
  unfold stationStatusRow at h
  obtain ⟨station_id, -, h⟩ := Except_bind_ok _ _ _ h
  obtain ⟨num_bikes_available, -, h⟩ := Except_bind_ok _ _ _ h
  obtain ⟨num_docks_available, -, h⟩ := Except_bind_ok _ _ _ h
  obtain ⟨last_reported, -, h⟩ := Except_bind_ok _ _ _ h
  obtain ⟨is_installed, h5, h⟩ := Except_bind_ok _ _ _ h
  obtain ⟨is_renting, h6, h⟩ := Except_bind_ok _ _ _ h
  obtain ⟨is_returning, h7, h⟩ := Except_bind_ok _ _ _ h
  cases h
  refine ⟨?_, ?_, ?_⟩
  · intro hk
    rw [value_int_absent ops members _ _ _ hk h5]
    rfl
  · intro hk
    rw [value_int_absent ops members _ _ _ hk h6]
    rfl
  · intro hk
    rw [value_int_absent ops members _ _ _ hk h7]
    rfl

theorem stationStatusRows_stations {F : Type} (ops : DoubleOps F)
    (top data : List (String × Json F)) (stations : List (Json F))
    (hdata : top.lookup "data" = some (.object data))
    (hstations : data.lookup "stations" = some (.array stations)) :
    stationStatusRows ops (.object top) = pushRows (stationStatusRow ops) stations [] := by
  simp [stationStatusRows, Json.contains, Json.index, Json.elements, hdata, hstations, bind,
    Except.bind]

/-- C2: in `EcobiciStationStatusBind`, for a payload whose `data.stations` is a list, the
row built for a station object without the key `is_installed` has `is_installed = true`;
likewise `is_renting` and `is_returning`. -/
theorem stationStatusBind_flags_default_true {F : Type} (ops : DoubleOps F)
    (parse : String → Except Exception (Json F)) (srv : Server) (log : List Request)
    (json_data : String) (top data members : List (String × Json F))
    (stations : List (Json F)) (i : Nat) (b : BindResult F)
    (hfetch : (FetchGBFSFeed srv log "station_status").1 = .ok json_data)
    (hparse : parse json_data = .ok (.object top))
    (hdata : top.lookup "data" = some (.object data))
    (hstations : data.lookup "stations" = some (.array stations))
    (hstation : stations[i]? = some (.object members))
    (hbind : (EcobiciStationStatusBind ops parse srv log).1 = .ok b) :
    ∃ row, b.bind_data.rows[i]? = some row ∧
      stationStatusRow ops (.object members) = .ok row ∧
      (members.lookup "is_installed" = none → row[4]? = some (.BOOLEAN true)) ∧
      (members.lookup "is_renting" = none → row[5]? = some (.BOOLEAN true)) ∧
      (members.lookup "is_returning" = none → row[6]? = some (.BOOLEAN true)) := by
  have hrows := bindWith_rows _ _ _ _ parse srv log json_data (.object top) b hfetch hparse hbind
  rw [stationStatusRows_stations ops top data stations hdata hstations] at hrows
  obtain ⟨row, hrow, hget⟩ := pushRows_spec _ stations [] _ hrows i _ hstation
  simp only [List.length_nil, Nat.zero_add] at hget
  exact ⟨row, hget, hrow, stationStatusRow_flags ops members row hrow⟩

/-- C3: for each of the three bind functions, a parsed payload without a top-level `data`
key gives a bind result with zero rows (and offset 0), not an exception. -/
theorem bind_without_data_zero_rows {F : Type} (kind : FeedKind) (ops : DoubleOps F)
    (parse : String → Except Exception (Json F)) (srv : Server) (log : List Request)
    (json_data : String) (parsed : Json F)
    (hfetch : (FetchGBFSFeed srv log (feedName kind)).1 = .ok json_data)
    (hparse : parse json_data = .ok parsed)
    (hdata : ∀ members, parsed = .object members → members.lookup "data" = none) :
    ∃ b, (bindOf kind ops parse srv log).1 = .ok b ∧ b.bind_data.rows = [] ∧
      b.bind_data.offset = 0 := by
  have hc := contains_false_of_no_key parsed "data" hdata
  cases kind with
  | station_status =>
    refine ⟨_, bindWith_ok _ _ _ _ parse srv log json_data parsed [] hfetch hparse ?_, rfl, rfl⟩
    simp [stationStatusRows, hc, pure, Except.pure]
  | station_information =>
    refine ⟨_, bindWith_ok _ _ _ _ parse srv log json_data parsed [] hfetch hparse ?_, rfl, rfl⟩
    simp [stationInfoRows, hc, pure, Except.pure]
  | system_information =>
    refine ⟨_, bindWith_ok _ _ _ _ parse srv log json_data parsed [] hfetch hparse ?_, rfl, rfl⟩
    simp [systemInfoRows, hc, pure, Except.pure]


/-- C2 on the example payload: the second station lacks `is_installed` and `is_renting`,
and its row carries `true` in both columns (and `false` for `is_returning`, reported 0). -/
theorem stationStatusBind_flags_default_true_witness :
    (EcobiciStationStatusBind unitOps (fun _ => .ok sampleStatus) (okServer "{}") []).1 =
      .ok ⟨["station_id", "num_bikes_available", "num_docks_available", "last_reported",
          "is_installed", "is_renting", "is_returning"],
        [.VARCHAR, .INTEGER, .INTEGER, .BIGINT, .BOOLEAN, .BOOLEAN, .BOOLEAN],
        ⟨[[.VARCHAR "001", .INTEGER 5, .INTEGER 7, .BIGINT 1700000000, .BOOLEAN true,
            .BOOLEAN true, .BOOLEAN true],
          [.VARCHAR "002", .INTEGER 0, .INTEGER 0, .BIGINT 0, .BOOLEAN true, .BOOLEAN true,
            .BOOLEAN false]], 0⟩⟩ ∧
    ∃ row : List (Value Unit),
      ([[.VARCHAR "001", .INTEGER 5, .INTEGER 7, .BIGINT 1700000000, .BOOLEAN true,
          .BOOLEAN true, .BOOLEAN true],
        [.VARCHAR "002", .INTEGER 0, .INTEGER 0, .BIGINT 0, .BOOLEAN true, .BOOLEAN true,
          .BOOLEAN false]] : List (List (Value Unit)))[1]? = some row ∧
      row[4]? = some (.BOOLEAN true) ∧ row[5]? = some (.BOOLEAN true) := by
  have hbind : (EcobiciStationStatusBind unitOps (fun _ => .ok sampleStatus)
      (okServer "{}") []).1 =
      .ok ⟨["station_id", "num_bikes_available", "num_docks_available", "last_reported",
          "is_installed", "is_renting", "is_returning"],
        [.VARCHAR, .INTEGER, .INTEGER, .BIGINT, .BOOLEAN, .BOOLEAN, .BOOLEAN],
        ⟨[[.VARCHAR "001", .INTEGER 5, .INTEGER 7, .BIGINT 1700000000, .BOOLEAN true,
            .BOOLEAN true, .BOOLEAN true],
          [.VARCHAR "002", .INTEGER 0, .INTEGER 0, .BIGINT 0, .BOOLEAN true, .BOOLEAN true,
            .BOOLEAN false]], 0⟩⟩ := by decide
  refine ⟨hbind, ?_⟩
  obtain ⟨row, h1, -, h4, h5, -⟩ := stationStatusBind_flags_default_true unitOps
    (fun _ => .ok sampleStatus) (okServer "{}") [] "{}" _ _
    [("is_returning", .number_unsigned 0), ("station_id", .string "002")] _ 1 _
    (by decide) rfl rfl rfl rfl hbind
  exact ⟨row, h1, h4 rfl, h5 rfl⟩

/-- C3 on the example payload without `data`, for the `system_information` feed: the bind
succeeds with an empty row buffer. -/
theorem bind_without_data_zero_rows_witness :
    ((FetchGBFSFeed (okServer "{}") [] (feedName .system_information)).1 = .ok "{}" ∧
      ∀ members, sampleNoData = .object members → members.lookup "data" = none) ∧
    ∃ b : BindResult Unit,
      (bindOf .system_information unitOps (fun _ => .ok sampleNoData) (okServer "{}") []).1
        = .ok b ∧ b.bind_data.rows = [] ∧ b.bind_data.offset = 0 := by
  have hno : ∀ members, sampleNoData = .object members → members.lookup "data" = none := by
    intro members h
    cases h
    rfl
  exact ⟨⟨by decide, hno⟩, bind_without_data_zero_rows .system_information unitOps
    (fun _ => .ok sampleNoData) (okServer "{}") [] "{}" sampleNoData (by decide) rfl hno⟩

/-! ## Theorems: bind followed by pulls -/

theorem bindWith_inv {F : Type} (names : List String) (return_types : List LogicalType)
    (feed_name : String) (rowsOf : Json F → Except Exception (List (List (Value F))))
    (parse : String → Except Exception (Json F)) (srv : Server) (log : List Request)
    (b : BindResult F)
    (hbind : (bindWith names return_types feed_name rowsOf parse srv log).1 = .ok b) :
    ∃ parsed, rowsOf parsed = .ok b.bind_data.rows ∧ b.return_types = return_types ∧
      b.names = names ∧ b.bind_data.offset = 0 := by
  unfold bindWith at hbind
  cases hf : FetchGBFSFeed srv log feed_name with
  | mk r log1 =>
    rw [hf] at hbind
    cases r with
    | error e => cases hbind
    | ok json_data =>
      simp only at hbind
      cases hp : parse json_data with
      | error e =>
        rw [hp] at hbind
        cases hbind
      | ok parsed =>
        rw [hp] at hbind
        simp only at hbind
        cases hr : rowsOf parsed with
        | error e =>
          rw [hr] at hbind
          cases hbind
        | ok rows =>
          rw [hr] at hbind
          simp only at hbind
          cases hbind
          exact ⟨parsed, hr, rfl, rfl, rfl⟩

theorem pushRows_length {F : Type} (rowOf : Json F → Except Exception (List (Value F)))
    (n : Nat) (hrow : ∀ station row, rowOf station = .ok row → row.length = n) :
    ∀ (stations : List (Json F)) (acc rows : List (List (Value F))),
      (∀ row ∈ acc, row.length = n) → pushRows rowOf stations acc = .ok rows →
      ∀ row ∈ rows, row.length = n := by
  intro stations
  induction stations with
  | nil =>
    intro acc rows hacc h
    rw [pushRows] at h
    cases h
    exact hacc
  | cons s rest ih =>
    intro acc rows hacc h
    rw [pushRows] at h
    cases hs : rowOf s with
    | error e =>
      rw [hs] at h
      cases h
    | ok row =>
      rw [hs] at h
      simp only at h
      refine ih (acc ++ [row]) rows ?_ h
      intro r hr
      rcases List.mem_append.1 hr with h1 | h1
      · exact hacc r h1
      · rw [List.mem_singleton.1 h1]
        exact hrow s row hs

theorem stationStatusRow_length {F : Type} (ops : DoubleOps F) (station : Json F)
    (row : List (Value F)) (h : stationStatusRow ops station = .ok row) : row.length = 7 := by
  unfold stationStatusRow at h
  obtain ⟨_, -, h⟩ := Except_bind_ok _ _ _ h
  obtain ⟨_, -, h⟩ := Except_bind_ok _ _ _ h
  obtain ⟨_, -, h⟩ := Except_bind_ok _ _ _ h
  obtain ⟨_, -, h⟩ := Except_bind_ok _ _ _ h
  obtain ⟨_, -, h⟩ := Except_bind_ok _ _ _ h
  obtain ⟨_, -, h⟩ := Except_bind_ok _ _ _ h
  obtain ⟨_, -, h⟩ := Except_bind_ok _ _ _ h
  cases h
  rfl

theorem stationInfoRow_length {F : Type} (ops : DoubleOps F) (station : Json F)
    (row : List (Value F)) (h : stationInfoRow ops station = .ok row) : row.length = 6 := by
  unfold stationInfoRow at h
  obtain ⟨_, -, h⟩ := Except_bind_ok _ _ _ h
  obtain ⟨_, -, h⟩ := Except_bind_ok _ _ _ h
  obtain ⟨_, -, h⟩ := Except_bind_ok _ _ _ h
  obtain ⟨_, -, h⟩ := Except_bind_ok _ _ _ h
  obtain ⟨_, -, h⟩ := Except_bind_ok _ _ _ h
  obtain ⟨_, -, h⟩ := Except_bind_ok _ _ _ h
  cases h
  rfl

theorem stationRows_length {F : Type} (rowOf : Json F → Except Exception (List (Value F)))
    (n : Nat) (hrow : ∀ station row, rowOf station = .ok row → row.length = n)
    (parsed : Json F) (rows : List (List (Value F)))
    (h : (if parsed.contains "data" then do
            let data ← parsed.index "data"
            if data.contains "stations" then do
              let stations ← data.index "stations"
              pushRows rowOf stations.elements []
            else pure []
          else pure []) = Except.ok rows) :
    ∀ row ∈ rows, row.length = n := by
  by_cases hc : parsed.contains "data" = true
  · rw [if_pos hc] at h
    obtain ⟨data, -, h⟩ := Except_bind_ok _ _ _ h
    by_cases hs : data.contains "stations" = true
    · rw [if_pos hs] at h
      obtain ⟨stations, -, h⟩ := Except_bind_ok _ _ _ h
      exact pushRows_length rowOf n hrow _ [] rows (by simp) h
    · rw [if_neg hs] at h
      cases h
      simp
  · rw [if_neg hc] at h
    cases h
    simp

/-- Every row of the buffer a bind function returns has one cell per column it declared:
the rows a pull function copies never lack a cell the chunk has a column for. -/
theorem bindOf_rows_arity {F : Type} (kind : FeedKind) (ops : DoubleOps F)
    (parse : String → Except Exception (Json F)) (srv : Server) (log : List Request)
    (b : BindResult F) (hbind : (bindOf kind ops parse srv log).1 = .ok b) :
    ∀ row ∈ b.bind_data.rows, row.length = b.return_types.length := by
  cases kind with
  | station_status =>
    obtain ⟨parsed, hr, ht, -, -⟩ := bindWith_inv _ _ _ _ parse srv log b hbind
    rw [ht]
    exact stationRows_length _ 7 (stationStatusRow_length ops) parsed _ hr
  | station_information =>
    obtain ⟨parsed, hr, ht, -, -⟩ := bindWith_inv _ _ _ _ parse srv log b hbind
    rw [ht]
    exact stationRows_length _ 6 (stationInfoRow_length ops) parsed _ hr
  | system_information =>
    obtain ⟨parsed, hr, ht, -, -⟩ := bindWith_inv _ _ _ _ parse srv log b hbind
    rw [ht]
    unfold systemInfoRows at hr
    by_cases hc : parsed.contains "data" = true
    · rw [if_pos hc] at hr
      obtain ⟨_, -, hr⟩ := Except_bind_ok _ _ _ hr
      obtain ⟨_, -, hr⟩ := Except_bind_ok _ _ _ hr
      obtain ⟨_, -, hr⟩ := Except_bind_ok _ _ _ hr
      obtain ⟨_, -, hr⟩ := Except_bind_ok _ _ _ hr
      obtain ⟨_, -, hr⟩ := Except_bind_ok _ _ _ hr
      rw [← Except.ok.inj hr]
      simp
    · rw [if_neg hc] at hr
      rw [← Except.ok.inj hr]
      simp

/-- C1: for each of the three pull functions, every row buffer (rows of one cell per chunk
column) and every batch size `B ≥ 1`: pulling from offset 0 until a pull reports count 0
ends (within `len + 1` pulls) and yields batches whose concatenation is the row buffer; and
a pull at offset `len` returns no row. The buffers the bind function of the feed kind
returns are such buffers: their rows have one cell per declared column. -/
theorem drain_yields_row_buffer {F : Type} (kind : FeedKind) (vector_size : Nat)
    (hB : 1 ≤ vector_size) (rows : List (List (Value F))) (output : DataChunk F)
    (harity : ∀ row ∈ rows, row.length = output.column_count) :
    ∃ batches : List (List (List (Value F))),
      batches.flatten = rows ∧
      (∀ fuel, rows.length + 1 ≤ fuel →
        drain (pullOf kind vector_size) fuel ⟨rows, 0⟩ output [] =
          some (batches, ⟨rows, rows.length⟩)) ∧
      (∀ out : DataChunk F,
        (pullOf kind vector_size ⟨rows, rows.length⟩ out).2.cardinality = 0 ∧
        (pullOf kind vector_size ⟨rows, rows.length⟩ out).2.rowList = []) ∧
      (∀ (ops : DoubleOps F) (parse : String → Except Exception (Json F)) (srv : Server)
          (log : List Request) (b : BindResult F),
        (bindOf kind ops parse srv log).1 = .ok b →
        ∀ row ∈ b.bind_data.rows, row.length = b.return_types.length) := by
  obtain ⟨more, hm1, hm2⟩ := drain_spec kind vector_size hB rows rows.length 0 output []
    (Nat.sub_zero _) (Nat.zero_le _) harity
  refine ⟨more, by simpa using hm1, ?_, ?_,
    fun ops parse srv log b hb => bindOf_rows_arity kind ops parse srv log b hb⟩
  · intro fuel hfuel
    simpa using hm2 fuel hfuel
  · intro out
    obtain ⟨-, -, h3, -, -⟩ := pullOf_spec kind vector_size ⟨rows, rows.length⟩ out
    simp only [Nat.sub_self, Nat.min_zero] at h3
    refine ⟨h3, ?_⟩
    simp [DataChunk.rowList, h3]

/-- C1 on a buffer of three rows with batch size 2: the pulls yield the batch of the first
two rows and the batch of the third row, and the pull at offset 3 reports a count of 0. -/
theorem drain_yields_row_buffer_witness :
    (1 ≤ 2 ∧ ∀ row ∈ ([[.INTEGER 1, .BOOLEAN true], [.INTEGER 2, .BOOLEAN false],
        [.INTEGER 3, .BOOLEAN true]] : List (List (Value Unit))), row.length = 2) ∧
    drain (pullOf .station_information 2) 4
        ⟨[[.INTEGER 1, .BOOLEAN true], [.INTEGER 2, .BOOLEAN false],
          [.INTEGER 3, .BOOLEAN true]], 0⟩ ⟨2, fun _ _ => (.NULL : Value Unit), 0⟩ [] =
      some ([[[.INTEGER 1, .BOOLEAN true], [.INTEGER 2, .BOOLEAN false]],
          [[.INTEGER 3, .BOOLEAN true]]],
        ⟨[[.INTEGER 1, .BOOLEAN true], [.INTEGER 2, .BOOLEAN false],
          [.INTEGER 3, .BOOLEAN true]], 3⟩) ∧
    (pullOf .station_information 2
        ⟨[[.INTEGER 1, .BOOLEAN true], [.INTEGER 2, .BOOLEAN false],
          [.INTEGER 3, .BOOLEAN true]], 3⟩
        ⟨2, fun _ _ => (.NULL : Value Unit), 0⟩).2.cardinality = 0 := by
  obtain ⟨batches, -, -, h3, -⟩ := drain_yields_row_buffer .station_information 2 (by decide)
    ([[.INTEGER 1, .BOOLEAN true], [.INTEGER 2, .BOOLEAN false],
      [.INTEGER 3, .BOOLEAN true]] : List (List (Value Unit)))
    ⟨2, fun _ _ => (.NULL : Value Unit), 0⟩ (by decide)
  refine ⟨⟨by decide, by decide⟩, ?_, (h3 ⟨2, fun _ _ => (.NULL : Value Unit), 0⟩).1⟩
  simp [drain, pullOf, EcobiciStationInfoFunction, pullLoop, copyRow, DataChunk.rowList,
    DataChunk.SetValue, DataChunk.SetCardinality, List.range, List.range.loop]

end Ecobici
